import Mathlib

/-
Verification of the watch-change aggregation layer of
Firestore/core/src/firebase/firestore/remote/remote_event.h.

The header under verification declares the data model (TargetChange,
TargetState, WatchChangeAggregator) together with its field initializers and
inline accessors; the method bodies live in remote_event.mm, which is not part
of the sources, so every method body below is modelled from the specification
document (each such definition carries a doc comment saying so).

Document keys and target ids are modelled as naturals, resume tokens
(NSData*) as byte lists (nil and the empty token coincide), and the
unordered maps as association lists where an insertion replaces every
older binding of the same key.
-/

/-- Association-list machinery standing in for std::unordered_map.
findEntry returns the first binding of a key. -/
def findEntry {α : Type} (k : Nat) : List (Nat × α) → Option (Nat × α)
  | [] => none
  | e :: es => if e.1 = k then some e else findEntry k es

/-- Lookup of a key's value in an association list. -/
def lookupKey {α : Type} (k : Nat) (l : List (Nat × α)) : Option α :=
  (findEntry k l).map Prod.snd

/-- Map update: binds `k` to `v`, dropping every older binding of `k`. -/
def setEntry {α : Type} (k : Nat) (v : α) (l : List (Nat × α)) : List (Nat × α) :=
  (k, v) :: l.filter (fun e => e.1 != k)

/-- Map erase: drops every binding of `k`. -/
def eraseKey {α : Type} (k : Nat) (l : List (Nat × α)) : List (Nat × α) :=
  l.filter (fun e => e.1 != k)

/-- Set insertion for id sets (std::set / std::unordered_set). -/
def insertSet (x : Nat) (l : List Nat) : List Nat :=
  if l.contains x then l else x :: l

/-- Set removal for id sets. -/
def eraseSet (x : Nat) (l : List Nat) : List Nat :=
  l.filter (fun y => y != x)

/-- core::DocumentViewChangeType (core/view_snapshot.h): the change kind
recorded per document key in a target's accumulated changes. -/
inductive DocumentViewChangeType where
  | removed
  | added
  | modified
  | metadata
  deriving DecidableEq

/-- FSTMaybeDocument: a document-or-tombstone value
(found-document, deleted-document, or unknown), carrying its key. -/
inductive MaybeDocument where
  | found (key : Nat) (version : Nat)
  | deleted (key : Nat) (version : Nat)
  | unknown (key : Nat)
  deriving DecidableEq

/-- The document key carried by a document-or-tombstone value. -/
def MaybeDocument.key : MaybeDocument → Nat
  | .found k _ => k
  | .deleted k _ => k
  | .unknown k => k

/-- remote::TargetChange: the immutable per-target slice of a remote event
(remote_event.h lines 82-147): resume token, current flag and the three
document-key sets. -/
structure TargetChange where
  resume_token : List Nat
  current : Bool
  added_documents : List Nat
  modified_documents : List Nat
  removed_documents : List Nat
  deriving DecidableEq

/-- remote::TargetState (remote_event.h lines 152-235), with the field
initializers taken from the header: outstanding_responses_ = 0,
current_ = false, has_pending_changes_ = true, resume_token_ nil. -/
structure TargetState where
  outstanding_responses : Int
  document_changes : List (Nat × DocumentViewChangeType)
  resume_token : List Nat
  current : Bool
  has_pending_changes : Bool
  deriving DecidableEq

/-- The state of a freshly constructed TargetState, per the header's field
initializers. -/
def TargetState.init : TargetState :=
  { outstanding_responses := 0
    document_changes := []
    resume_token := []
    current := false
    has_pending_changes := true }

/-- TargetState::IsPending (inline in the header): outstanding_responses_ != 0. -/
def TargetState.IsPending (s : TargetState) : Bool :=
  s.outstanding_responses != 0

/-- TargetState::HasPendingChanges (inline in the header). -/
def TargetState.HasPendingChanges (s : TargetState) : Bool :=
  s.has_pending_changes

/-- Modelled from the spec (TargetState::UpdateResumeToken, body in the
missing remote_event.mm): overwrites the stored token only if the new token
is non-empty; empty resume tokens are discarded. -/
def TargetState.UpdateResumeToken (s : TargetState) (token : List Nat) : TargetState :=
  if token.isEmpty then s else { s with resume_token := token }

/-- Modelled from the spec (TargetState::ToTargetChange, body in the missing
remote_event.mm): builds a TargetChange from the current resume token and
current flag, partitioning document_changes into added/modified/removed key
sets by change kind; pure, no mutation. -/
def TargetState.ToTargetChange (s : TargetState) : TargetChange :=
  { resume_token := s.resume_token
    current := s.current
    added_documents :=
      (s.document_changes.filter (fun e => e.2 == DocumentViewChangeType.added)).map Prod.fst
    modified_documents :=
      (s.document_changes.filter (fun e => e.2 == DocumentViewChangeType.modified)).map Prod.fst
    removed_documents :=
      (s.document_changes.filter (fun e => e.2 == DocumentViewChangeType.removed)).map Prod.fst }

/-- Modelled from the spec (TargetState::ClearPendingChanges, body in the
missing remote_event.mm): empties document_changes and resets
has_pending_changes. -/
def TargetState.ClearPendingChanges (s : TargetState) : TargetState :=
  { s with document_changes := [], has_pending_changes := false }

/-- Modelled from the spec (TargetState::AddDocumentChange, body in the
missing remote_event.mm): upserts the key's change kind, latest write wins,
and flags pending changes. -/
def TargetState.AddDocumentChange (s : TargetState) (key : Nat)
    (kind : DocumentViewChangeType) : TargetState :=
  { s with document_changes := setEntry key kind s.document_changes
           has_pending_changes := true }

/-- Modelled from the spec (TargetState::RemoveDocumentChange, body in the
missing remote_event.mm): erases the key's entry and flags pending changes. -/
def TargetState.RemoveDocumentChange (s : TargetState) (key : Nat) : TargetState :=
  { s with document_changes := eraseKey key s.document_changes
           has_pending_changes := true }

/-- Modelled from the spec (TargetState::RecordPendingTargetRequest, body in
the missing remote_event.mm): outstanding_responses += 1. -/
def TargetState.RecordPendingTargetRequest (s : TargetState) : TargetState :=
  { s with outstanding_responses := s.outstanding_responses + 1 }

/-- Modelled from the spec (TargetState::RecordTargetResponse, body in the
missing remote_event.mm): outstanding_responses -= 1. -/
def TargetState.RecordTargetResponse (s : TargetState) : TargetState :=
  { s with outstanding_responses := s.outstanding_responses - 1 }

/-- Modelled from the spec (TargetState::MarkCurrent, body in the missing
remote_event.mm): sets current and flags pending changes. -/
def TargetState.MarkCurrent (s : TargetState) : TargetState :=
  { s with current := true, has_pending_changes := true }

/-- DocumentWatchChange (remote/watch_change.h): per-document stream event
naming the targets the document was added to and removed from, plus the
document's latest known state. -/
structure DocumentWatchChange where
  added_target_ids : List Nat
  removed_target_ids : List Nat
  document_key : Nat
  document : MaybeDocument
  deriving DecidableEq

/-- The state variants of a WatchTargetChange (remote/watch_change.h). -/
inductive WatchTargetChangeState where
  | noChange
  | added
  | removed
  | current
  | reset
  deriving DecidableEq

/-- WatchTargetChange (remote/watch_change.h): per-target stream event; an
empty target_ids list means the change applies to all active targets, and
cause records whether the server attached an error cause. -/
structure WatchTargetChange where
  state : WatchTargetChangeState
  target_ids : List Nat
  resume_token : List Nat
  cause : Bool
  deriving DecidableEq

/-- ExistenceFilterWatchChange (remote/watch_change.h): the server's expected
document count for one target. -/
structure ExistenceFilterWatchChange where
  target_id : Nat
  expected_count : Int
  deriving DecidableEq

/-- FSTRemoteEvent: the aggregate output of CreateRemoteEvent: snapshot
version, target-id to TargetChange map, mismatched target set, and the global
document-update map. -/
structure FSTRemoteEvent where
  snapshot_version : Nat
  target_changes : List (Nat × TargetChange)
  target_mismatches : List Nat
  document_updates : List (Nat × MaybeDocument)
  deriving DecidableEq

/-- The FSTTargetMetadataProvider protocol (remote_event.h lines 51-67):
remote keys known for a target as of the last snapshot, and the query
metadata of a target the user still cares about (none signals the target is
no longer of interest). -/
structure FSTTargetMetadataProvider where
  remoteKeysForTarget : Nat → List Nat
  queryDataForTarget : Nat → Option Unit

/-- remote::WatchChangeAggregator (remote_event.h lines 241-374): per-target
states plus the three transient per-snapshot accumulators. The metadata
provider the constructor stores is passed explicitly to each operation. -/
structure WatchChangeAggregator where
  target_states : List (Nat × TargetState)
  pending_document_updates : List (Nat × MaybeDocument)
  pending_document_target_mappings : List (Nat × List Nat)
  pending_target_resets : List Nat
  deriving DecidableEq

/-- A freshly constructed aggregator: all maps empty. -/
def WatchChangeAggregator.initAgg : WatchChangeAggregator :=
  { target_states := []
    pending_document_updates := []
    pending_document_target_mappings := []
    pending_target_resets := [] }

namespace WatchChangeAggregator

/-- Modelled from the spec (WatchChangeAggregator::EnsureTargetState, body in
the missing remote_event.mm): the target's state, created on first
reference. -/
def EnsureTargetState (st : WatchChangeAggregator) (tid : Nat) : TargetState :=
  (lookupKey tid st.target_states).getD TargetState.init

/-- Helper: replace the state of target `tid` by `f` of its current state,
creating the state on first reference. -/
def UpdateTargetState (st : WatchChangeAggregator) (tid : Nat)
    (f : TargetState → TargetState) : WatchChangeAggregator :=
  { st with target_states := setEntry tid (f (st.EnsureTargetState tid)) st.target_states }

/-- Modelled from the spec (WatchChangeAggregator::IsActiveTarget, body in
the missing remote_event.mm): a target is active iff its state exists, it is
not pending, and the metadata provider still reports query data for it. -/
def IsActiveTarget (p : FSTTargetMetadataProvider) (st : WatchChangeAggregator)
    (tid : Nat) : Bool :=
  match lookupKey tid st.target_states with
  | some ts => !ts.IsPending && (p.queryDataForTarget tid).isSome
  | none => false

/-- Modelled from the spec (WatchChangeAggregator::TargetContainsDocument,
body in the missing remote_event.mm): the provider's last-known remote keys
contain the key, or the target's accumulated pending delta marks it
added/modified. -/
def TargetContainsDocument (p : FSTTargetMetadataProvider)
    (st : WatchChangeAggregator) (tid : Nat) (key : Nat) : Bool :=
  (p.remoteKeysForTarget tid).contains key ||
    (match lookupKey tid st.target_states with
     | some ts =>
       (match lookupKey key ts.document_changes with
        | some DocumentViewChangeType.added => true
        | some DocumentViewChangeType.modified => true
        | _ => false)
     | none => false)

/-- Modelled from the spec (WatchChangeAggregator::AddDocumentToTarget, body
in the missing remote_event.mm): records the document in the global content
map, adds it to the target's membership set, and records an added or
modified delta on the target's state depending on previous membership. -/
def AddDocumentToTarget (p : FSTTargetMetadataProvider)
    (st : WatchChangeAggregator) (tid : Nat) (doc : MaybeDocument) :
    WatchChangeAggregator :=
  let kind := if TargetContainsDocument p st tid doc.key
              then DocumentViewChangeType.modified else DocumentViewChangeType.added
  { st with
    target_states :=
      setEntry tid ((st.EnsureTargetState tid).AddDocumentChange doc.key kind) st.target_states
    pending_document_updates := setEntry doc.key doc st.pending_document_updates
    pending_document_target_mappings :=
      setEntry doc.key
        (insertSet tid ((lookupKey doc.key st.pending_document_target_mappings).getD []))
        st.pending_document_target_mappings }

/-- Modelled from the spec (WatchChangeAggregator::RemoveDocumentFromTarget,
body in the missing remote_event.mm): for a known target, removes the
document from the target's membership set and records a removed delta,
suppressed when the target is pending a reset; an unknown or removed target
is a no-op; when the document's new state is known it is recorded in the
global content map. -/
def RemoveDocumentFromTarget (st : WatchChangeAggregator) (tid : Nat)
    (key : Nat) (updated_document : Option MaybeDocument) :
    WatchChangeAggregator :=
  match lookupKey tid st.target_states with
  | none => st
  | some ts =>
    let ts2 := if st.pending_target_resets.contains tid then ts
               else ts.AddDocumentChange key DocumentViewChangeType.removed
    { st with
      target_states := setEntry tid ts2 st.target_states
      pending_document_target_mappings :=
        st.pending_document_target_mappings.map
          (fun e => (e.1, if e.1 = key then eraseSet tid e.2 else e.2))
      pending_document_updates :=
        match updated_document with
        | some d => setEntry key d st.pending_document_updates
        | none => st.pending_document_updates }

/-- Modelled from the spec (WatchChangeAggregator::HandleDocumentChange, body
in the missing remote_event.mm): adds the document to each target in the
added list, then removes it from each target in the removed list. -/
def HandleDocumentChange (p : FSTTargetMetadataProvider)
    (st : WatchChangeAggregator) (c : DocumentWatchChange) :
    WatchChangeAggregator :=
  let st1 := c.added_target_ids.foldl (fun s tid => AddDocumentToTarget p s tid c.document) st
  c.removed_target_ids.foldl (fun s tid => RemoveDocumentFromTarget s tid c.document_key none) st1

/-- Modelled from the spec (WatchChangeAggregator::ResetTarget, body in the
missing remote_event.mm): restores the target to its just-listened state:
current false, resume token and document changes cleared (the outstanding
response count is untouched), and the target id removed from every
document's membership set. -/
def ResetTarget (st : WatchChangeAggregator) (tid : Nat) : WatchChangeAggregator :=
  { st with
    target_states :=
      setEntry tid
        { TargetState.init with
            outstanding_responses := (st.EnsureTargetState tid).outstanding_responses }
        st.target_states
    pending_document_target_mappings :=
      st.pending_document_target_mappings.map (fun e => (e.1, eraseSet tid e.2)) }

/-- Modelled from the spec (WatchChangeAggregator::GetTargetIds, body in the
missing remote_event.mm): the change's explicit target ids when non-empty,
otherwise every currently active target id. -/
def GetTargetIds (p : FSTTargetMetadataProvider) (st : WatchChangeAggregator)
    (tc : WatchTargetChange) : List Nat :=
  if tc.target_ids.isEmpty
  then (st.target_states.map Prod.fst).filter (fun tid => IsActiveTarget p st tid)
  else tc.target_ids

/-- Modelled from the spec (one resolved target id of
WatchChangeAggregator::HandleTargetChange, body in the missing
remote_event.mm): no-change applies the resume token to active targets;
added registers a pending request; removed records a response for a known
target, signalling targets removed with a cause through the mismatch set;
current marks the target current and applies the resume token; reset resets
the target and re-registers a pending request. -/
def HandleTargetChangeFor (p : FSTTargetMetadataProvider)
    (tc : WatchTargetChange) (st : WatchChangeAggregator) (tid : Nat) :
    WatchChangeAggregator :=
  match tc.state with
  | WatchTargetChangeState.noChange =>
    if IsActiveTarget p st tid
    then st.UpdateTargetState tid (fun ts => ts.UpdateResumeToken tc.resume_token)
    else st
  | WatchTargetChangeState.added =>
    st.UpdateTargetState tid TargetState.RecordPendingTargetRequest
  | WatchTargetChangeState.removed =>
    match lookupKey tid st.target_states with
    | none => st
    | some ts =>
      let st1 := { st with target_states := setEntry tid ts.RecordTargetResponse st.target_states }
      if tc.cause
      then { st1 with pending_target_resets := insertSet tid st1.pending_target_resets }
      else st1
  | WatchTargetChangeState.current =>
    st.UpdateTargetState tid (fun ts => (ts.MarkCurrent).UpdateResumeToken tc.resume_token)
  | WatchTargetChangeState.reset =>
    (st.ResetTarget tid).UpdateTargetState tid TargetState.RecordPendingTargetRequest

/-- Modelled from the spec (WatchChangeAggregator::HandleTargetChange, body
in the missing remote_event.mm): applies the change to every resolved
target id. -/
def HandleTargetChange (p : FSTTargetMetadataProvider)
    (st : WatchChangeAggregator) (tc : WatchTargetChange) :
    WatchChangeAggregator :=
  (GetTargetIds p st tc).foldl (HandleTargetChangeFor p tc) st

/-- Modelled from the spec
(WatchChangeAggregator::GetCurrentDocumentCountForTarget, body in the
missing remote_event.mm): the provider's last-known remote key count plus
accumulated pending adds minus accumulated pending removes. -/
def GetCurrentDocumentCountForTarget (p : FSTTargetMetadataProvider)
    (st : WatchChangeAggregator) (tid : Nat) : Int :=
  let changes := (st.EnsureTargetState tid).document_changes
  ((p.remoteKeysForTarget tid).length : Int) +
    ((changes.filter (fun e => e.2 == DocumentViewChangeType.added)).length : Int) -
    ((changes.filter (fun e => e.2 == DocumentViewChangeType.removed)).length : Int)

/-- Modelled from the spec (WatchChangeAggregator::HandleExistenceFilter,
body in the missing remote_event.mm): compares the filter's expected count
with the current document count; on mismatch resets the target and adds it
to the pending-mismatch set; on match changes nothing. -/
def HandleExistenceFilter (p : FSTTargetMetadataProvider)
    (st : WatchChangeAggregator) (f : ExistenceFilterWatchChange) :
    WatchChangeAggregator :=
  if GetCurrentDocumentCountForTarget p st f.target_id = f.expected_count then st
  else
    let st1 := st.ResetTarget f.target_id
    { st1 with pending_target_resets := insertSet f.target_id st1.pending_target_resets }

/-- Modelled from the spec: the inclusion test of
WatchChangeAggregator::CreateRemoteEvent (body in the missing
remote_event.mm): a target-state entry contributes a TargetChange when it
has pending changes and is currently active, or when it is in the
pending-mismatch set. -/
def IncludeTarget (p : FSTTargetMetadataProvider) (st : WatchChangeAggregator)
    (e : Nat × TargetState) : Bool :=
  (e.2.has_pending_changes && IsActiveTarget p st e.1) ||
    st.pending_target_resets.contains e.1

/-- Modelled from the spec (WatchChangeAggregator::CreateRemoteEvent, body in
the missing remote_event.mm): assembles the remote event from every included
target's TargetChange, the pending-mismatch set and the global content map,
then clears each included target's pending changes and all transient
per-snapshot accumulators. -/
def CreateRemoteEvent (p : FSTTargetMetadataProvider)
    (st : WatchChangeAggregator) (snapshot_version : Nat) :
    FSTRemoteEvent × WatchChangeAggregator :=
  ( { snapshot_version := snapshot_version
      target_changes :=
        (st.target_states.filter (IncludeTarget p st)).map
          (fun e => (e.1, e.2.ToTargetChange))
      target_mismatches := st.pending_target_resets
      document_updates := st.pending_document_updates },
    { target_states :=
        st.target_states.map
          (fun e => (e.1, if IncludeTarget p st e then e.2.ClearPendingChanges else e.2))
      pending_document_updates := []
      pending_document_target_mappings := []
      pending_target_resets := [] } )

/-- Modelled from the spec (WatchChangeAggregator::RemoveTarget, body in the
missing remote_event.mm): deletes the target's state and purges the target
id from every entry of the membership map; no error when the target is
unknown. -/
def RemoveTarget (st : WatchChangeAggregator) (tid : Nat) : WatchChangeAggregator :=
  { st with
    target_states := eraseKey tid st.target_states
    pending_document_target_mappings :=
      st.pending_document_target_mappings.map (fun e => (e.1, eraseSet tid e.2)) }

/-- Modelled from the spec
(WatchChangeAggregator::RecordPendingTargetRequest, body in the missing
remote_event.mm): ensures a state exists and increments its outstanding
count. -/
def RecordPendingTargetRequest (st : WatchChangeAggregator) (tid : Nat) :
    WatchChangeAggregator :=
  st.UpdateTargetState tid TargetState.RecordPendingTargetRequest

end WatchChangeAggregator

/-- One invocation of a public aggregator operation. -/
inductive AggOp where
  | docChange (c : DocumentWatchChange)
  | targetChange (tc : WatchTargetChange)
  | existenceFilter (f : ExistenceFilterWatchChange)
  | createRemoteEvent (v : Nat)
  | removeTarget (tid : Nat)
  | recordPendingTargetRequest (tid : Nat)
  deriving DecidableEq

/-- The state transition of one public operation (the event returned by
CreateRemoteEvent is discarded here). -/
def applyOp (p : FSTTargetMetadataProvider) (st : WatchChangeAggregator) :
    AggOp → WatchChangeAggregator
  | AggOp.docChange c => WatchChangeAggregator.HandleDocumentChange p st c
  | AggOp.targetChange tc => WatchChangeAggregator.HandleTargetChange p st tc
  | AggOp.existenceFilter f => WatchChangeAggregator.HandleExistenceFilter p st f
  | AggOp.createRemoteEvent v => (WatchChangeAggregator.CreateRemoteEvent p st v).2
  | AggOp.removeTarget tid => WatchChangeAggregator.RemoveTarget st tid
  | AggOp.recordPendingTargetRequest tid => WatchChangeAggregator.RecordPendingTargetRequest st tid

/-- The state after a sequence of public operations. -/
def applyOps (p : FSTTargetMetadataProvider) (ops : List AggOp)
    (st : WatchChangeAggregator) : WatchChangeAggregator :=
  ops.foldl (applyOp p) st

section AssocLemmas

variable {α : Type}

theorem findEntry_key {k : Nat} {l : List (Nat × α)} {e : Nat × α}
    (h : findEntry k l = some e) : e.1 = k := by
  induction l with
  | nil => simp [findEntry] at h
  | cons a as ih =>
    by_cases hk : a.1 = k
    · simp [findEntry, hk] at h
      subst h
      exact hk
    · simp [findEntry, hk] at h
      exact ih h

theorem findEntry_mem {k : Nat} {l : List (Nat × α)} {e : Nat × α}
    (h : findEntry k l = some e) : e ∈ l := by
  induction l with
  | nil => simp [findEntry] at h
  | cons a as ih =>
    by_cases hk : a.1 = k
    · simp [findEntry, hk] at h
      simp [h]
    · simp [findEntry, hk] at h
      exact List.mem_cons_of_mem a (ih h)

theorem lookupKey_eq_some_iff {k : Nat} {l : List (Nat × α)} {v : α} :
    lookupKey k l = some v ↔ findEntry k l = some (k, v) := by
  unfold lookupKey
  cases h : findEntry k l with
  | none => simp
  | some e =>
    have hk := findEntry_key h
    cases e with
    | mk k0 v0 =>
      simp at hk
      subst hk
      simp

theorem lookupKey_mem {k : Nat} {l : List (Nat × α)} {v : α}
    (h : lookupKey k l = some v) : (k, v) ∈ l :=
  findEntry_mem (lookupKey_eq_some_iff.mp h)

theorem findEntry_filterNe {k k2 : Nat} (hne : k2 ≠ k) (l : List (Nat × α)) :
    findEntry k (l.filter (fun e => e.1 != k2)) = findEntry k l := by
  induction l with
  | nil => rfl
  | cons a as ih =>
    by_cases hk : a.1 = k
    · simp [List.filter_cons, findEntry, hk, Ne.symm hne, ih]
    · by_cases h2 : a.1 = k2
      · simp [List.filter_cons, findEntry, hk, h2, hne, ih]
      · simp [List.filter_cons, findEntry, hk, h2, ih]

theorem findEntry_filter_self (k : Nat) (l : List (Nat × α)) :
    findEntry k (l.filter (fun e => e.1 != k)) = none := by
  induction l with
  | nil => rfl
  | cons a as ih =>
    by_cases hk : a.1 = k
    · simp [List.filter_cons, hk, ih]
    · simp [List.filter_cons, hk, findEntry, ih]

theorem lookupKey_setEntry_self (k : Nat) (v : α) (l : List (Nat × α)) :
    lookupKey k (setEntry k v l) = some v := by
  simp [lookupKey, setEntry, findEntry]

theorem lookupKey_setEntry_ne {k k2 : Nat} (hne : k2 ≠ k) (v : α)
    (l : List (Nat × α)) : lookupKey k (setEntry k2 v l) = lookupKey k l := by
  simp [lookupKey, setEntry, findEntry, hne, findEntry_filterNe hne]

theorem filter_eq_self_of_findEntry_none {k : Nat} {l : List (Nat × α)}
    (h : findEntry k l = none) : l.filter (fun e => e.1 != k) = l := by
  induction l with
  | nil => rfl
  | cons a as ih =>
    by_cases hk : a.1 = k
    · simp [findEntry, hk] at h
    · simp [findEntry, hk] at h
      simp [List.filter_cons, hk, ih h]

theorem findEntry_mapSnd {β : Type} (k : Nat) (f : Nat × α → β) (l : List (Nat × α)) :
    findEntry k (l.map (fun e => (e.1, f e))) = (findEntry k l).map (fun e => (e.1, f e)) := by
  induction l with
  | nil => rfl
  | cons a as ih =>
    by_cases hk : a.1 = k
    · simp [findEntry, hk]
    · simp [findEntry, hk, ih]

theorem lookupKey_mapSnd {β : Type} (k : Nat) (f : Nat × α → β) (l : List (Nat × α)) :
    lookupKey k (l.map (fun e => (e.1, f e))) = (findEntry k l).map f := by
  simp [lookupKey, findEntry_mapSnd]
  cases findEntry k l <;> simp

theorem findEntry_filter_of_mem {k : Nat} {l : List (Nat × α)} {e : Nat × α}
    (q : Nat × α → Bool) (h : findEntry k l = some e) (hq : q e = true) :
    findEntry k (l.filter q) = some e := by
  induction l with
  | nil => simp [findEntry] at h
  | cons a as ih =>
    by_cases hk : a.1 = k
    · simp [findEntry, hk] at h
      subst h
      simp [List.filter_cons, hq, findEntry, hk]
    · simp [findEntry, hk] at h
      by_cases hqa : q a = true
      · simp [List.filter_cons, hqa, findEntry, hk, ih h]
      · simp at hqa
        simp [List.filter_cons, hqa, ih h]

theorem count_keys_filterNe (k : Nat) (l : List (Nat × α)) :
    ((l.filter (fun e => e.1 != k)).map Prod.fst).count k = 0 := by
  rw [List.count_eq_zero]
  intro hmem
  rcases List.mem_map.mp hmem with ⟨e, he, hfst⟩
  rcases List.mem_filter.mp he with ⟨_, hne⟩
  rw [bne_iff_ne] at hne
  exact hne hfst

theorem count_keys_setEntry (k : Nat) (v : α) (l : List (Nat × α)) :
    ((setEntry k v l).map Prod.fst).count k = 1 := by
  simp [setEntry, List.count_cons, count_keys_filterNe]

theorem mem_insertSet_self (x : Nat) (l : List Nat) : x ∈ insertSet x l := by
  by_cases h : x ∈ l
  · simp [insertSet, h]
  · simp [insertSet, h]

theorem not_mem_eraseSet_self (x : Nat) (l : List Nat) : x ∉ eraseSet x l := by
  unfold eraseSet
  intro h
  rcases List.mem_filter.mp h with ⟨_, hx⟩
  rw [bne_iff_ne] at hx
  exact hx rfl

theorem eraseSet_of_not_mem {x : Nat} {l : List Nat} (h : x ∉ l) :
    eraseSet x l = l := by
  unfold eraseSet
  apply List.filter_eq_self.mpr
  intro a ha
  rw [bne_iff_ne]
  intro hax
  exact h (hax ▸ ha)

theorem map_eq_self_of_fix {β : Type} {l : List β} {f : β → β}
    (h : ∀ e ∈ l, f e = e) : l.map f = l := by
  induction l with
  | nil => rfl
  | cons a as ih =>
    simp [h a (List.mem_cons_self a as), ih (fun e he => h e (List.mem_cons_of_mem a he))]

theorem filter_eq_nil_of_false {β : Type} {l : List β} {q : β → Bool}
    (h : ∀ e ∈ l, q e = false) : l.filter q = [] := by
  induction l with
  | nil => rfl
  | cons a as ih =>
    simp [List.filter_cons, h a (List.mem_cons_self a as),
      ih (fun e he => h e (List.mem_cons_of_mem a he))]

end AssocLemmas

section TargetStateFieldLemmas

@[simp] theorem updateResumeToken_outstanding (s : TargetState) (t : List Nat) :
    (s.UpdateResumeToken t).outstanding_responses = s.outstanding_responses := by
  unfold TargetState.UpdateResumeToken
  split <;> rfl

@[simp] theorem updateResumeToken_changes (s : TargetState) (t : List Nat) :
    (s.UpdateResumeToken t).document_changes = s.document_changes := by
  unfold TargetState.UpdateResumeToken
  split <;> rfl

@[simp] theorem updateResumeToken_current (s : TargetState) (t : List Nat) :
    (s.UpdateResumeToken t).current = s.current := by
  unfold TargetState.UpdateResumeToken
  split <;> rfl

@[simp] theorem updateResumeToken_hasPending (s : TargetState) (t : List Nat) :
    (s.UpdateResumeToken t).has_pending_changes = s.has_pending_changes := by
  unfold TargetState.UpdateResumeToken
  split <;> rfl

@[simp] theorem clearPendingChanges_outstanding (s : TargetState) :
    s.ClearPendingChanges.outstanding_responses = s.outstanding_responses := rfl

@[simp] theorem clearPendingChanges_current (s : TargetState) :
    s.ClearPendingChanges.current = s.current := rfl

@[simp] theorem clearPendingChanges_token (s : TargetState) :
    s.ClearPendingChanges.resume_token = s.resume_token := rfl

@[simp] theorem clearPendingChanges_changes (s : TargetState) :
    s.ClearPendingChanges.document_changes = [] := rfl

@[simp] theorem clearPendingChanges_hasPending (s : TargetState) :
    s.ClearPendingChanges.has_pending_changes = false := rfl

@[simp] theorem addDocumentChange_outstanding (s : TargetState) (k : Nat)
    (kind : DocumentViewChangeType) :
    (s.AddDocumentChange k kind).outstanding_responses = s.outstanding_responses := rfl

@[simp] theorem markCurrent_outstanding (s : TargetState) :
    s.MarkCurrent.outstanding_responses = s.outstanding_responses := rfl

@[simp] theorem markCurrent_current (s : TargetState) :
    s.MarkCurrent.current = true := rfl

@[simp] theorem markCurrent_changes (s : TargetState) :
    s.MarkCurrent.document_changes = s.document_changes := rfl

@[simp] theorem recordPendingTargetRequest_outstanding (s : TargetState) :
    s.RecordPendingTargetRequest.outstanding_responses = s.outstanding_responses + 1 := rfl

@[simp] theorem recordTargetResponse_outstanding (s : TargetState) :
    s.RecordTargetResponse.outstanding_responses = s.outstanding_responses - 1 := rfl

@[simp] theorem removeDocumentChange_outstanding (s : TargetState) (k : Nat) :
    (s.RemoveDocumentChange k).outstanding_responses = s.outstanding_responses := rfl

end TargetStateFieldLemmas

theorem lookupKey_eq_some_of_mem_nodup {α : Type} {k : Nat} {v : α}
    {l : List (Nat × α)} (hnd : (l.map Prod.fst).Nodup) (hm : (k, v) ∈ l) :
    lookupKey k l = some v := by
  induction l with
  | nil => simp at hm
  | cons a as ih =>
    rw [List.map_cons, List.nodup_cons] at hnd
    rcases List.mem_cons.mp hm with h | h
    · rw [← h]
      simp [lookupKey, findEntry]
    · have hk : a.1 ≠ k := by
        intro hak
        exact hnd.1 (hak ▸ List.mem_map.mpr ⟨(k, v), h, rfl⟩)
      simp [lookupKey, findEntry, hk] at ih ⊢
      exact ih hnd.2 h

theorem mem_kindKeys_iff {l : List (Nat × DocumentViewChangeType)}
    {kind : DocumentViewChangeType} {k : Nat} (hnd : (l.map Prod.fst).Nodup) :
    k ∈ (l.filter (fun e => e.2 == kind)).map Prod.fst ↔
      lookupKey k l = some kind := by
  constructor
  · intro h
    rcases List.mem_map.mp h with ⟨e, he, hfst⟩
    rcases List.mem_filter.mp he with ⟨hel, hkind⟩
    have h2 : e.2 = kind := by simpa using hkind
    have he2 : (k, kind) = e := by
      cases e
      simp_all
    exact lookupKey_eq_some_of_mem_nodup hnd (he2 ▸ hel)
  · intro h
    exact List.mem_map.mpr ⟨(k, kind), List.mem_filter.mpr ⟨lookupKey_mem h, by simp⟩, rfl⟩

theorem lookupKey_isSome_of_mem_keys {α : Type} {k : Nat} {l : List (Nat × α)}
    (h : k ∈ l.map Prod.fst) : ∃ v, lookupKey k l = some v := by
  induction l with
  | nil => simp at h
  | cons a as ih =>
    by_cases hk : a.1 = k
    · exact ⟨a.2, by simp [lookupKey, findEntry, hk]⟩
    · rw [List.map_cons] at h
      rcases List.mem_cons.mp h with h1 | h1
      · exact absurd h1.symm hk
      · rcases ih h1 with ⟨v, hv⟩
        refine ⟨v, ?_⟩
        simpa [lookupKey, findEntry, hk] using hv

/-- C3: UpdateResumeToken overwrites the stored resume token exactly when the
new token is non-empty; in particular an empty token after storing "abc"
leaves "abc", and a later "def" overwrites it. -/
theorem c3_update_resume_token (s : TargetState) (token : List Nat) :
    ((s.UpdateResumeToken token).resume_token =
      if token = [] then s.resume_token else token) ∧
    ((s.UpdateResumeToken [97, 98, 99]).UpdateResumeToken []).resume_token
      = [97, 98, 99] ∧
    (((s.UpdateResumeToken [97, 98, 99]).UpdateResumeToken
        []).UpdateResumeToken [100, 101, 102]).resume_token
      = [100, 101, 102] := by
  refine ⟨?_, rfl, rfl⟩
  unfold TargetState.UpdateResumeToken
  cases token <;> simp

/-- C10: a freshly constructed TargetState is not pending (outstanding count
zero), not current, has a nil resume token and has pending changes; the first
TargetChange derived from it carries current false and three empty key
sets. -/
theorem c10_fresh_target_state :
    TargetState.init.IsPending = false ∧
    TargetState.init.outstanding_responses = 0 ∧
    TargetState.init.current = false ∧
    TargetState.init.resume_token = [] ∧
    TargetState.init.HasPendingChanges = true ∧
    TargetState.init.ToTargetChange =
      { resume_token := [], current := false, added_documents := [],
        modified_documents := [], removed_documents := [] } :=
  ⟨rfl, rfl, rfl, rfl, rfl, rfl⟩

/-- C9: ToTargetChange copies the resume token and current flag and, for
states whose accumulated changes bind each key once and use no metadata-only
kind, its three key sets are the partition of the keys of document_changes
by change kind (membership characterized by lookup, pairwise disjoint,
jointly covering); being a plain function of the state it mutates
nothing. -/
theorem c9_to_target_change (s : TargetState) (k : Nat)
    (hnd : (s.document_changes.map Prod.fst).Nodup)
    (hkinds : ∀ e ∈ s.document_changes, e.2 ≠ DocumentViewChangeType.metadata) :
    s.ToTargetChange.resume_token = s.resume_token ∧
    s.ToTargetChange.current = s.current ∧
    (k ∈ s.ToTargetChange.added_documents ↔
      lookupKey k s.document_changes = some DocumentViewChangeType.added) ∧
    (k ∈ s.ToTargetChange.modified_documents ↔
      lookupKey k s.document_changes = some DocumentViewChangeType.modified) ∧
    (k ∈ s.ToTargetChange.removed_documents ↔
      lookupKey k s.document_changes = some DocumentViewChangeType.removed) ∧
    ¬(k ∈ s.ToTargetChange.added_documents ∧
       k ∈ s.ToTargetChange.modified_documents) ∧
    ¬(k ∈ s.ToTargetChange.added_documents ∧
       k ∈ s.ToTargetChange.removed_documents) ∧
    ¬(k ∈ s.ToTargetChange.modified_documents ∧
       k ∈ s.ToTargetChange.removed_documents) ∧
    (k ∈ s.document_changes.map Prod.fst ↔
      (k ∈ s.ToTargetChange.added_documents ∨
       k ∈ s.ToTargetChange.modified_documents ∨
       k ∈ s.ToTargetChange.removed_documents)) := by
  have hadd := @mem_kindKeys_iff s.document_changes DocumentViewChangeType.added k hnd
  have hmod := @mem_kindKeys_iff s.document_changes DocumentViewChangeType.modified k hnd
  have hrem := @mem_kindKeys_iff s.document_changes DocumentViewChangeType.removed k hnd
  refine ⟨rfl, rfl, hadd, hmod, hrem, ?_, ?_, ?_, ?_⟩
  · rintro ⟨h1, h2⟩
    have := (hadd.mp h1).symm.trans (hmod.mp h2)
    simp at this
  · rintro ⟨h1, h2⟩
    have := (hadd.mp h1).symm.trans (hrem.mp h2)
    simp at this
  · rintro ⟨h1, h2⟩
    have := (hmod.mp h1).symm.trans (hrem.mp h2)
    simp at this
  · constructor
    · intro h
      rcases lookupKey_isSome_of_mem_keys h with ⟨v, hv⟩
      have hmem := lookupKey_mem hv
      have hnm := hkinds (k, v) hmem
      cases v with
      | added => exact Or.inl (hadd.mpr hv)
      | modified => exact Or.inr (Or.inl (hmod.mpr hv))
      | removed => exact Or.inr (Or.inr (hrem.mpr hv))
      | metadata => exact absurd rfl hnm
    · rintro (h | h | h)
      · exact List.mem_map.mpr ⟨(k, _), lookupKey_mem (hadd.mp h), rfl⟩
      · exact List.mem_map.mpr ⟨(k, _), lookupKey_mem (hmod.mp h), rfl⟩
      · exact List.mem_map.mpr ⟨(k, _), lookupKey_mem (hrem.mp h), rfl⟩

/-- A concrete three-entry target state used by the C9 witness. -/
def tsW9 : TargetState :=
  TargetState.mk 0
    [(1, DocumentViewChangeType.added), (2, DocumentViewChangeType.modified),
     (3, DocumentViewChangeType.removed)] [5] true true

/-- Witness for C9 at a concrete three-entry state. -/
theorem c9_to_target_change_witness :
    ((tsW9.document_changes.map Prod.fst).Nodup ∧
      ∀ e ∈ tsW9.document_changes, e.2 ≠ DocumentViewChangeType.metadata) ∧
    (tsW9.ToTargetChange.resume_token = tsW9.resume_token ∧
     tsW9.ToTargetChange.current = tsW9.current ∧
     (1 ∈ tsW9.ToTargetChange.added_documents ↔
       lookupKey 1 tsW9.document_changes = some DocumentViewChangeType.added) ∧
     (1 ∈ tsW9.ToTargetChange.modified_documents ↔
       lookupKey 1 tsW9.document_changes = some DocumentViewChangeType.modified) ∧
     (1 ∈ tsW9.ToTargetChange.removed_documents ↔
       lookupKey 1 tsW9.document_changes = some DocumentViewChangeType.removed) ∧
     ¬(1 ∈ tsW9.ToTargetChange.added_documents ∧
        1 ∈ tsW9.ToTargetChange.modified_documents) ∧
     ¬(1 ∈ tsW9.ToTargetChange.added_documents ∧
        1 ∈ tsW9.ToTargetChange.removed_documents) ∧
     ¬(1 ∈ tsW9.ToTargetChange.modified_documents ∧
        1 ∈ tsW9.ToTargetChange.removed_documents) ∧
     (1 ∈ tsW9.document_changes.map Prod.fst ↔
       (1 ∈ tsW9.ToTargetChange.added_documents ∨
        1 ∈ tsW9.ToTargetChange.modified_documents ∨
        1 ∈ tsW9.ToTargetChange.removed_documents))) :=
  ⟨⟨by decide, by decide⟩, c9_to_target_change tsW9 1 (by decide) (by decide)⟩

theorem lookupKey_createRemoteEvent_snd (p : FSTTargetMetadataProvider)
    (st : WatchChangeAggregator) (v : Nat) (tid : Nat) :
    lookupKey tid ((WatchChangeAggregator.CreateRemoteEvent p st v).2).target_states =
      (findEntry tid st.target_states).map
        (fun e => if WatchChangeAggregator.IncludeTarget p st e
                  then e.2.ClearPendingChanges else e.2) :=
  lookupKey_mapSnd tid _ st.target_states

theorem isActiveTarget_createRemoteEvent (p : FSTTargetMetadataProvider)
    (st : WatchChangeAggregator) (v : Nat) (tid : Nat) :
    WatchChangeAggregator.IsActiveTarget p
        ((WatchChangeAggregator.CreateRemoteEvent p st v).2) tid =
      WatchChangeAggregator.IsActiveTarget p st tid := by
  unfold WatchChangeAggregator.IsActiveTarget
  rw [lookupKey_createRemoteEvent_snd]
  cases h : findEntry tid st.target_states with
  | none =>
    have : lookupKey tid st.target_states = none := by simp [lookupKey, h]
    rw [this]
    rfl
  | some e =>
    have : lookupKey tid st.target_states = some e.2 := by simp [lookupKey, h]
    rw [this, Option.map_some']
    by_cases hinc : WatchChangeAggregator.IncludeTarget p st e = true
    · simp only [hinc, if_true]
      simp [TargetState.IsPending]
    · simp only [Bool.not_eq_true] at hinc
      simp only [hinc, Bool.false_eq_true, if_false]

theorem includeTarget_createRemoteEvent_false (p : FSTTargetMetadataProvider)
    (st : WatchChangeAggregator) (v : Nat) :
    ∀ e ∈ ((WatchChangeAggregator.CreateRemoteEvent p st v).2).target_states,
      WatchChangeAggregator.IncludeTarget p
        ((WatchChangeAggregator.CreateRemoteEvent p st v).2) e = false := by
  intro e2 h2
  have hstates : ((WatchChangeAggregator.CreateRemoteEvent p st v).2).target_states
      = st.target_states.map
          (fun e => (e.1, if WatchChangeAggregator.IncludeTarget p st e
                          then e.2.ClearPendingChanges else e.2)) := rfl
  rw [hstates] at h2
  rcases List.mem_map.mp h2 with ⟨e, he, rfl⟩
  have hres : ((WatchChangeAggregator.CreateRemoteEvent p st v).2).pending_target_resets
      = [] := rfl
  by_cases hinc : WatchChangeAggregator.IncludeTarget p st e = true
  · rw [if_pos hinc]
    unfold WatchChangeAggregator.IncludeTarget
    rw [hres]
    simp
  · rw [if_neg hinc]
    unfold WatchChangeAggregator.IncludeTarget
    rw [hres, Bool.or_eq_false_iff]
    refine ⟨?_, by simp⟩
    rw [isActiveTarget_createRemoteEvent p st v]
    have hinc2 : WatchChangeAggregator.IncludeTarget p st e = false := by
      simpa using hinc
    unfold WatchChangeAggregator.IncludeTarget at hinc2
    rw [Bool.or_eq_false_iff] at hinc2
    exact hinc2.1

/-- C1: after one CreateRemoteEvent, a second CreateRemoteEvent with no
intervening change events yields empty target_changes and empty
document_updates, and the first call leaves the state of any target with no
pending changes (and not pending a mismatch reset) untouched. -/
theorem c1_noop_drain (p : FSTTargetMetadataProvider)
    (st : WatchChangeAggregator) (v1 v2 : Nat) (tid : Nat) (ts : TargetState)
    (h : lookupKey tid st.target_states = some ts)
    (hp : ts.has_pending_changes = false)
    (hr : st.pending_target_resets.contains tid = false) :
    (WatchChangeAggregator.CreateRemoteEvent p
        ((WatchChangeAggregator.CreateRemoteEvent p st v1).2) v2).1.target_changes = [] ∧
    (WatchChangeAggregator.CreateRemoteEvent p
        ((WatchChangeAggregator.CreateRemoteEvent p st v1).2) v2).1.document_updates = [] ∧
    lookupKey tid ((WatchChangeAggregator.CreateRemoteEvent p st v1).2).target_states
      = some ts := by
  refine ⟨?_, rfl, ?_⟩
  · show ((((WatchChangeAggregator.CreateRemoteEvent p st v1).2).target_states.filter
      (WatchChangeAggregator.IncludeTarget p
        ((WatchChangeAggregator.CreateRemoteEvent p st v1).2))).map
      (fun e => (e.1, e.2.ToTargetChange))) = []
    rw [filter_eq_nil_of_false (includeTarget_createRemoteEvent_false p st v1)]
    rfl
  · rw [lookupKey_createRemoteEvent_snd]
    rw [lookupKey_eq_some_iff.mp h]
    have hr2 : tid ∉ st.pending_target_resets := by simpa using hr
    have hinc : WatchChangeAggregator.IncludeTarget p st (tid, ts) = false := by
      unfold WatchChangeAggregator.IncludeTarget
      simp [hp, hr2]
    simp [hinc]

/-- Witness state and provider for the CreateRemoteEvent claims: every target
has query data and no remote keys. -/
def pAllActive : FSTTargetMetadataProvider :=
  { remoteKeysForTarget := fun _ => []
    queryDataForTarget := fun _ => some () }

/-- Witness state for C1: one quiescent target. -/
def stW1 : WatchChangeAggregator :=
  { target_states := [(5, TargetState.mk 0 [] [7] true false)]
    pending_document_updates := []
    pending_document_target_mappings := []
    pending_target_resets := [] }

/-- Witness for C1 at a concrete quiescent state. -/
theorem c1_noop_drain_witness :
    (lookupKey 5 stW1.target_states = some (TargetState.mk 0 [] [7] true false) ∧
      (TargetState.mk 0 [] [7] true false).has_pending_changes = false ∧
      stW1.pending_target_resets.contains 5 = false) ∧
    ((WatchChangeAggregator.CreateRemoteEvent pAllActive
        ((WatchChangeAggregator.CreateRemoteEvent pAllActive stW1 1).2) 2).1.target_changes = [] ∧
     (WatchChangeAggregator.CreateRemoteEvent pAllActive
        ((WatchChangeAggregator.CreateRemoteEvent pAllActive stW1 1).2) 2).1.document_updates = [] ∧
     lookupKey 5 ((WatchChangeAggregator.CreateRemoteEvent pAllActive stW1 1).2).target_states
       = some (TargetState.mk 0 [] [7] true false)) :=
  ⟨⟨by decide, by decide, by decide⟩,
   c1_noop_drain pAllActive stW1 1 2 5 (TargetState.mk 0 [] [7] true false)
     (by decide) (by decide) (by decide)⟩

/-- C2: for every target included in an emitted remote event,
CreateRemoteEvent publishes its ToTargetChange and replaces its state by the
cleared state — empty document_changes, has_pending_changes false, current
and resume token untouched — and clears all transient per-snapshot
accumulators (content map, membership map, pending-mismatch set). -/
theorem c2_emit_clears (p : FSTTargetMetadataProvider)
    (st : WatchChangeAggregator) (v : Nat) (tid : Nat) (ts : TargetState)
    (h : lookupKey tid st.target_states = some ts)
    (hinc : WatchChangeAggregator.IncludeTarget p st (tid, ts) = true) :
    lookupKey tid (WatchChangeAggregator.CreateRemoteEvent p st v).1.target_changes
      = some ts.ToTargetChange ∧
    lookupKey tid (WatchChangeAggregator.CreateRemoteEvent p st v).2.target_states
      = some ts.ClearPendingChanges ∧
    ts.ClearPendingChanges.document_changes = [] ∧
    ts.ClearPendingChanges.has_pending_changes = false ∧
    ts.ClearPendingChanges.current = ts.current ∧
    ts.ClearPendingChanges.resume_token = ts.resume_token ∧
    (WatchChangeAggregator.CreateRemoteEvent p st v).2.pending_document_updates = [] ∧
    (WatchChangeAggregator.CreateRemoteEvent p st v).2.pending_document_target_mappings = [] ∧
    (WatchChangeAggregator.CreateRemoteEvent p st v).2.pending_target_resets = [] := by
  have hfe : findEntry tid st.target_states = some (tid, ts) :=
    lookupKey_eq_some_iff.mp h
  refine ⟨?_, ?_, rfl, rfl, rfl, rfl, rfl, rfl, rfl⟩
  · have hm : lookupKey tid ((WatchChangeAggregator.CreateRemoteEvent p st v).1).target_changes
        = (findEntry tid (st.target_states.filter
            (WatchChangeAggregator.IncludeTarget p st))).map
            (fun e => e.2.ToTargetChange) :=
      lookupKey_mapSnd tid (fun (e : Nat × TargetState) => e.2.ToTargetChange)
        (st.target_states.filter (WatchChangeAggregator.IncludeTarget p st))
    rw [hm, findEntry_filter_of_mem (WatchChangeAggregator.IncludeTarget p st) hfe hinc]
    rfl
  · rw [lookupKey_createRemoteEvent_snd, hfe, Option.map_some']
    rw [if_pos hinc]

/-- Witness state for C2: one fresh (hence pending-changes) target. -/
def stW2 : WatchChangeAggregator :=
  { target_states := [(4, TargetState.init)]
    pending_document_updates := [(9, MaybeDocument.found 9 3)]
    pending_document_target_mappings := [(9, [4])]
    pending_target_resets := [] }

/-- Witness for C2 at a concrete one-target state. -/
theorem c2_emit_clears_witness :
    (lookupKey 4 stW2.target_states = some TargetState.init ∧
      WatchChangeAggregator.IncludeTarget pAllActive stW2 (4, TargetState.init) = true) ∧
    (lookupKey 4 (WatchChangeAggregator.CreateRemoteEvent pAllActive stW2 1).1.target_changes
       = some TargetState.init.ToTargetChange ∧
     lookupKey 4 (WatchChangeAggregator.CreateRemoteEvent pAllActive stW2 1).2.target_states
       = some TargetState.init.ClearPendingChanges ∧
     TargetState.init.ClearPendingChanges.document_changes = [] ∧
     TargetState.init.ClearPendingChanges.has_pending_changes = false ∧
     TargetState.init.ClearPendingChanges.current = TargetState.init.current ∧
     TargetState.init.ClearPendingChanges.resume_token = TargetState.init.resume_token ∧
     (WatchChangeAggregator.CreateRemoteEvent pAllActive stW2 1).2.pending_document_updates = [] ∧
     (WatchChangeAggregator.CreateRemoteEvent pAllActive stW2 1).2.pending_document_target_mappings = [] ∧
     (WatchChangeAggregator.CreateRemoteEvent pAllActive stW2 1).2.pending_target_resets = []) :=
  ⟨⟨by decide, by decide⟩,
   c2_emit_clears pAllActive stW2 1 4 TargetState.init (by decide) (by decide)⟩

/-- C4: HandleExistenceFilter compares the expected count with the current
document count (remote keys plus pending deltas); on mismatch it resets the
target (current false, resume token cleared, membership purged from every
document) and adds the target to the pending-mismatch set, which the next
emitted event reports; on match it changes no state. -/
theorem c4_existence_filter (p : FSTTargetMetadataProvider)
    (st : WatchChangeAggregator) (tid : Nat) (cnt : Int) (v : Nat)
    (hne : WatchChangeAggregator.GetCurrentDocumentCountForTarget p st tid ≠ cnt) :
    (∃ ts2, lookupKey tid (WatchChangeAggregator.HandleExistenceFilter p st
        (ExistenceFilterWatchChange.mk tid cnt)).target_states = some ts2 ∧
      ts2.current = false ∧ ts2.resume_token = [] ∧ ts2.document_changes = []) ∧
    (∀ e ∈ (WatchChangeAggregator.HandleExistenceFilter p st
        (ExistenceFilterWatchChange.mk tid cnt)).pending_document_target_mappings,
      tid ∉ e.2) ∧
    tid ∈ (WatchChangeAggregator.HandleExistenceFilter p st
        (ExistenceFilterWatchChange.mk tid cnt)).pending_target_resets ∧
    tid ∈ (WatchChangeAggregator.CreateRemoteEvent p
        (WatchChangeAggregator.HandleExistenceFilter p st
          (ExistenceFilterWatchChange.mk tid cnt)) v).1.target_mismatches ∧
    WatchChangeAggregator.HandleExistenceFilter p st
      (ExistenceFilterWatchChange.mk tid
        (WatchChangeAggregator.GetCurrentDocumentCountForTarget p st tid)) = st := by
  have hres : WatchChangeAggregator.HandleExistenceFilter p st
      (ExistenceFilterWatchChange.mk tid cnt) =
      { WatchChangeAggregator.ResetTarget st tid with
        pending_target_resets :=
          insertSet tid (WatchChangeAggregator.ResetTarget st tid).pending_target_resets } := by
    unfold WatchChangeAggregator.HandleExistenceFilter
    rw [if_neg hne]
  refine ⟨?_, ?_, ?_, ?_, ?_⟩
  · rw [hres]
    exact ⟨_, lookupKey_setEntry_self tid _ st.target_states, rfl, rfl, rfl⟩
  · intro e he
    rw [hres] at he
    rcases List.mem_map.mp he with ⟨e0, _, rfl⟩
    exact not_mem_eraseSet_self tid e0.2
  · rw [hres]
    exact mem_insertSet_self tid _
  · rw [hres]
    exact mem_insertSet_self tid _
  · unfold WatchChangeAggregator.HandleExistenceFilter
    rw [if_pos rfl]

/-- Witness state for C4: membership entries naming target 6. -/
def stW4 : WatchChangeAggregator :=
  { target_states := []
    pending_document_updates := []
    pending_document_target_mappings := [(9, [6, 3])]
    pending_target_resets := [] }

/-- Witness for C4 at a concrete mismatching filter. -/
theorem c4_existence_filter_witness :
    (WatchChangeAggregator.GetCurrentDocumentCountForTarget pAllActive stW4 6 ≠ 2) ∧
    ((∃ ts2, lookupKey 6 (WatchChangeAggregator.HandleExistenceFilter pAllActive stW4
        (ExistenceFilterWatchChange.mk 6 2)).target_states = some ts2 ∧
      ts2.current = false ∧ ts2.resume_token = [] ∧ ts2.document_changes = []) ∧
     (∀ e ∈ (WatchChangeAggregator.HandleExistenceFilter pAllActive stW4
        (ExistenceFilterWatchChange.mk 6 2)).pending_document_target_mappings,
       6 ∉ e.2) ∧
     6 ∈ (WatchChangeAggregator.HandleExistenceFilter pAllActive stW4
        (ExistenceFilterWatchChange.mk 6 2)).pending_target_resets ∧
     6 ∈ (WatchChangeAggregator.CreateRemoteEvent pAllActive
        (WatchChangeAggregator.HandleExistenceFilter pAllActive stW4
          (ExistenceFilterWatchChange.mk 6 2)) 1).1.target_mismatches ∧
     WatchChangeAggregator.HandleExistenceFilter pAllActive stW4
       (ExistenceFilterWatchChange.mk 6
         (WatchChangeAggregator.GetCurrentDocumentCountForTarget pAllActive stW4 6)) = stW4) :=
  ⟨by decide, c4_existence_filter pAllActive stW4 6 2 1 (by decide)⟩

theorem findEntry_setEntry_self (k : Nat) {α : Type} (v : α) (l : List (Nat × α)) :
    findEntry k (setEntry k v l) = some (k, v) := by
  simp [setEntry, findEntry]

theorem findEntry_setEntry_ne {α : Type} {k k2 : Nat} (hne : k2 ≠ k) (v : α)
    (l : List (Nat × α)) : findEntry k (setEntry k2 v l) = findEntry k l := by
  simp [setEntry, findEntry, hne, findEntry_filterNe hne]

/-- C7: RemoveTarget deletes the target's state and purges it from every
membership entry; on a state that never references the target it is a
complete no-op rather than an error; and after removal a DocumentWatchChange
naming the target in removed_target_ids changes nothing (no resurrection). -/
theorem c7_remove_target (p : FSTTargetMetadataProvider)
    (st st2 : WatchChangeAggregator) (tid key : Nat) (d : MaybeDocument)
    (hu1 : lookupKey tid st.target_states = none)
    (hu2 : ∀ e ∈ st.pending_document_target_mappings, tid ∉ e.2) :
    lookupKey tid (WatchChangeAggregator.RemoveTarget st2 tid).target_states = none ∧
    (∀ e ∈ (WatchChangeAggregator.RemoveTarget st2 tid).pending_document_target_mappings,
      tid ∉ e.2) ∧
    WatchChangeAggregator.RemoveTarget st tid = st ∧
    WatchChangeAggregator.HandleDocumentChange p
      (WatchChangeAggregator.RemoveTarget st2 tid)
      (DocumentWatchChange.mk [] [tid] key d)
      = WatchChangeAggregator.RemoveTarget st2 tid := by
  have ha : ∀ s : WatchChangeAggregator,
      lookupKey tid (WatchChangeAggregator.RemoveTarget s tid).target_states = none := by
    intro s
    show lookupKey tid (eraseKey tid s.target_states) = none
    simp [lookupKey, eraseKey, findEntry_filter_self]
  refine ⟨ha st2, ?_, ?_, ?_⟩
  · intro e he
    rcases List.mem_map.mp he with ⟨e0, _, rfl⟩
    exact not_mem_eraseSet_self tid e0.2
  · have h1 : eraseKey tid st.target_states = st.target_states := by
      apply filter_eq_self_of_findEntry_none
      rcases Option.map_eq_none'.mp hu1 with h
      exact h
    have h2 : st.pending_document_target_mappings.map (fun e => (e.1, eraseSet tid e.2))
        = st.pending_document_target_mappings := by
      apply map_eq_self_of_fix
      intro e he
      rw [eraseSet_of_not_mem (hu2 e he)]
    unfold WatchChangeAggregator.RemoveTarget
    rw [h1, h2]
  · unfold WatchChangeAggregator.HandleDocumentChange
    simp only [List.foldl_cons, List.foldl_nil]
    unfold WatchChangeAggregator.RemoveDocumentFromTarget
    rw [ha st2]

/-- Witness states for C7: stW7a never references target 2; stW7b has target
2 registered and present in a membership entry. -/
def stW7a : WatchChangeAggregator :=
  { target_states := []
    pending_document_updates := []
    pending_document_target_mappings := [(9, [5])]
    pending_target_resets := [] }

/-- Second witness state for C7 (the removed target is known here). -/
def stW7b : WatchChangeAggregator :=
  { target_states := [(2, TargetState.init)]
    pending_document_updates := []
    pending_document_target_mappings := [(9, [2, 5])]
    pending_target_resets := [] }

/-- Witness for C7 at concrete states. -/
theorem c7_remove_target_witness :
    (lookupKey 2 stW7a.target_states = none ∧
      ∀ e ∈ stW7a.pending_document_target_mappings, 2 ∉ e.2) ∧
    (lookupKey 2 (WatchChangeAggregator.RemoveTarget stW7b 2).target_states = none ∧
     (∀ e ∈ (WatchChangeAggregator.RemoveTarget stW7b 2).pending_document_target_mappings,
       2 ∉ e.2) ∧
     WatchChangeAggregator.RemoveTarget stW7a 2 = stW7a ∧
     WatchChangeAggregator.HandleDocumentChange pAllActive
       (WatchChangeAggregator.RemoveTarget stW7b 2)
       (DocumentWatchChange.mk [] [2] 9 (MaybeDocument.deleted 9 4))
       = WatchChangeAggregator.RemoveTarget stW7b 2) :=
  ⟨⟨by decide, by decide⟩,
   c7_remove_target pAllActive stW7a stW7b 2 9 (MaybeDocument.deleted 9 4)
     (by decide) (by decide)⟩

theorem addDocumentToTarget_target_states (p : FSTTargetMetadataProvider)
    (st : WatchChangeAggregator) (tid : Nat) (doc : MaybeDocument) :
    (WatchChangeAggregator.AddDocumentToTarget p st tid doc).target_states =
      setEntry tid ((st.EnsureTargetState tid).AddDocumentChange doc.key
        (if WatchChangeAggregator.TargetContainsDocument p st tid doc.key
         then DocumentViewChangeType.modified else DocumentViewChangeType.added))
        st.target_states := rfl

theorem addDocumentToTarget_updates (p : FSTTargetMetadataProvider)
    (st : WatchChangeAggregator) (tid : Nat) (doc : MaybeDocument) :
    (WatchChangeAggregator.AddDocumentToTarget p st tid doc).pending_document_updates =
      setEntry doc.key doc st.pending_document_updates := rfl

/-- C5: a single DocumentWatchChange adding document D to the fresh targets 1
and 2 yields, on the next CreateRemoteEvent, a TargetChange for each of the
two targets with D among its added documents, and exactly one binding for D
in the event's global document_updates map. -/
theorem c5_multi_target_fanout (p : FSTTargetMetadataProvider)
    (st : WatchChangeAggregator) (D ver sv : Nat)
    (h1 : lookupKey 1 st.target_states = none)
    (h2 : lookupKey 2 st.target_states = none)
    (hr1 : (p.remoteKeysForTarget 1).contains D = false)
    (hr2 : (p.remoteKeysForTarget 2).contains D = false)
    (hq1 : (p.queryDataForTarget 1).isSome = true)
    (hq2 : (p.queryDataForTarget 2).isSome = true) :
    (∃ tc1, lookupKey 1 (WatchChangeAggregator.CreateRemoteEvent p
        (WatchChangeAggregator.HandleDocumentChange p st
          (DocumentWatchChange.mk [1, 2] [] D (MaybeDocument.found D ver))) sv).1.target_changes
        = some tc1 ∧ D ∈ tc1.added_documents) ∧
    (∃ tc2, lookupKey 2 (WatchChangeAggregator.CreateRemoteEvent p
        (WatchChangeAggregator.HandleDocumentChange p st
          (DocumentWatchChange.mk [1, 2] [] D (MaybeDocument.found D ver))) sv).1.target_changes
        = some tc2 ∧ D ∈ tc2.added_documents) ∧
    (((WatchChangeAggregator.CreateRemoteEvent p
        (WatchChangeAggregator.HandleDocumentChange p st
          (DocumentWatchChange.mk [1, 2] [] D (MaybeDocument.found D ver))) sv).1.document_updates.map
        Prod.fst).count D = 1) := by
  have hEns1 : st.EnsureTargetState 1 = TargetState.init := by
    unfold WatchChangeAggregator.EnsureTargetState
    rw [h1]
    rfl
  have hTCD1 : WatchChangeAggregator.TargetContainsDocument p st 1 D = false := by
    unfold WatchChangeAggregator.TargetContainsDocument
    rw [hr1, h1]
    rfl
  have hA_states : (WatchChangeAggregator.AddDocumentToTarget p st 1
      (MaybeDocument.found D ver)).target_states
      = setEntry 1 (TargetState.init.AddDocumentChange D DocumentViewChangeType.added)
          st.target_states := by
    rw [addDocumentToTarget_target_states]
    simp only [MaybeDocument.key]
    rw [hEns1]
    simp [hTCD1]
  have hA_updates : (WatchChangeAggregator.AddDocumentToTarget p st 1
      (MaybeDocument.found D ver)).pending_document_updates
      = setEntry D (MaybeDocument.found D ver) st.pending_document_updates := by
    rw [addDocumentToTarget_updates]
    simp only [MaybeDocument.key]
  have hA_lookup2 : lookupKey 2 (WatchChangeAggregator.AddDocumentToTarget p st 1
      (MaybeDocument.found D ver)).target_states = none := by
    rw [hA_states, lookupKey_setEntry_ne (by decide : (1 : Nat) ≠ 2)]
    exact h2
  have hEns2 : (WatchChangeAggregator.AddDocumentToTarget p st 1
      (MaybeDocument.found D ver)).EnsureTargetState 2 = TargetState.init := by
    unfold WatchChangeAggregator.EnsureTargetState
    rw [hA_lookup2]
    rfl
  have hTCD2 : WatchChangeAggregator.TargetContainsDocument p
      (WatchChangeAggregator.AddDocumentToTarget p st 1 (MaybeDocument.found D ver)) 2 D
      = false := by
    unfold WatchChangeAggregator.TargetContainsDocument
    rw [hr2, hA_lookup2]
    rfl
  have hB_states : (WatchChangeAggregator.AddDocumentToTarget p
      (WatchChangeAggregator.AddDocumentToTarget p st 1 (MaybeDocument.found D ver)) 2
      (MaybeDocument.found D ver)).target_states
      = setEntry 2 (TargetState.init.AddDocumentChange D DocumentViewChangeType.added)
          (setEntry 1 (TargetState.init.AddDocumentChange D DocumentViewChangeType.added)
            st.target_states) := by
    rw [addDocumentToTarget_target_states]
    simp only [MaybeDocument.key]
    rw [hEns2, hA_states]
    simp [hTCD2]
  have hB_updates : (WatchChangeAggregator.AddDocumentToTarget p
      (WatchChangeAggregator.AddDocumentToTarget p st 1 (MaybeDocument.found D ver)) 2
      (MaybeDocument.found D ver)).pending_document_updates
      = setEntry D (MaybeDocument.found D ver)
          (setEntry D (MaybeDocument.found D ver) st.pending_document_updates) := by
    rw [addDocumentToTarget_updates]
    simp only [MaybeDocument.key]
    rw [hA_updates]
  have hHD : WatchChangeAggregator.HandleDocumentChange p st
      (DocumentWatchChange.mk [1, 2] [] D (MaybeDocument.found D ver))
      = WatchChangeAggregator.AddDocumentToTarget p
          (WatchChangeAggregator.AddDocumentToTarget p st 1 (MaybeDocument.found D ver)) 2
          (MaybeDocument.found D ver) := rfl
  have hfe1 : findEntry 1 (WatchChangeAggregator.HandleDocumentChange p st
      (DocumentWatchChange.mk [1, 2] [] D (MaybeDocument.found D ver))).target_states
      = some (1, TargetState.init.AddDocumentChange D DocumentViewChangeType.added) := by
    rw [hHD, hB_states, findEntry_setEntry_ne (by decide : (2 : Nat) ≠ 1),
      findEntry_setEntry_self]
  have hfe2 : findEntry 2 (WatchChangeAggregator.HandleDocumentChange p st
      (DocumentWatchChange.mk [1, 2] [] D (MaybeDocument.found D ver))).target_states
      = some (2, TargetState.init.AddDocumentChange D DocumentViewChangeType.added) := by
    rw [hHD, hB_states, findEntry_setEntry_self]
  have hl1 : lookupKey 1 (WatchChangeAggregator.HandleDocumentChange p st
      (DocumentWatchChange.mk [1, 2] [] D (MaybeDocument.found D ver))).target_states
      = some (TargetState.init.AddDocumentChange D DocumentViewChangeType.added) :=
    lookupKey_eq_some_iff.mpr hfe1
  have hl2 : lookupKey 2 (WatchChangeAggregator.HandleDocumentChange p st
      (DocumentWatchChange.mk [1, 2] [] D (MaybeDocument.found D ver))).target_states
      = some (TargetState.init.AddDocumentChange D DocumentViewChangeType.added) :=
    lookupKey_eq_some_iff.mpr hfe2
  have hinc1 : WatchChangeAggregator.IncludeTarget p
      (WatchChangeAggregator.HandleDocumentChange p st
        (DocumentWatchChange.mk [1, 2] [] D (MaybeDocument.found D ver)))
      (1, TargetState.init.AddDocumentChange D DocumentViewChangeType.added) = true := by
    unfold WatchChangeAggregator.IncludeTarget WatchChangeAggregator.IsActiveTarget
    rw [hl1]
    simp [TargetState.IsPending, TargetState.AddDocumentChange, TargetState.init, hq1]
  have hinc2 : WatchChangeAggregator.IncludeTarget p
      (WatchChangeAggregator.HandleDocumentChange p st
        (DocumentWatchChange.mk [1, 2] [] D (MaybeDocument.found D ver)))
      (2, TargetState.init.AddDocumentChange D DocumentViewChangeType.added) = true := by
    unfold WatchChangeAggregator.IncludeTarget WatchChangeAggregator.IsActiveTarget
    rw [hl2]
    simp [TargetState.IsPending, TargetState.AddDocumentChange, TargetState.init, hq2]
  refine ⟨⟨(TargetState.init.AddDocumentChange D
      DocumentViewChangeType.added).ToTargetChange, ?_, ?_⟩,
    ⟨(TargetState.init.AddDocumentChange D
      DocumentViewChangeType.added).ToTargetChange, ?_, ?_⟩, ?_⟩
  · have hm : lookupKey 1 (WatchChangeAggregator.CreateRemoteEvent p
        (WatchChangeAggregator.HandleDocumentChange p st
          (DocumentWatchChange.mk [1, 2] [] D (MaybeDocument.found D ver))) sv).1.target_changes
        = (findEntry 1 ((WatchChangeAggregator.HandleDocumentChange p st
            (DocumentWatchChange.mk [1, 2] [] D (MaybeDocument.found D ver))).target_states.filter
            (WatchChangeAggregator.IncludeTarget p
              (WatchChangeAggregator.HandleDocumentChange p st
                (DocumentWatchChange.mk [1, 2] [] D (MaybeDocument.found D ver)))))).map
            (fun e => e.2.ToTargetChange) :=
      lookupKey_mapSnd 1 (fun (e : Nat × TargetState) => e.2.ToTargetChange) _
    rw [hm, findEntry_filter_of_mem _ hfe1 hinc1]
    rfl
  · simp [TargetState.ToTargetChange, TargetState.AddDocumentChange, TargetState.init,
      setEntry, List.filter]
  · have hm : lookupKey 2 (WatchChangeAggregator.CreateRemoteEvent p
        (WatchChangeAggregator.HandleDocumentChange p st
          (DocumentWatchChange.mk [1, 2] [] D (MaybeDocument.found D ver))) sv).1.target_changes
        = (findEntry 2 ((WatchChangeAggregator.HandleDocumentChange p st
            (DocumentWatchChange.mk [1, 2] [] D (MaybeDocument.found D ver))).target_states.filter
            (WatchChangeAggregator.IncludeTarget p
              (WatchChangeAggregator.HandleDocumentChange p st
                (DocumentWatchChange.mk [1, 2] [] D (MaybeDocument.found D ver)))))).map
            (fun e => e.2.ToTargetChange) :=
      lookupKey_mapSnd 2 (fun (e : Nat × TargetState) => e.2.ToTargetChange) _
    rw [hm, findEntry_filter_of_mem _ hfe2 hinc2]
    rfl
  · simp [TargetState.ToTargetChange, TargetState.AddDocumentChange, TargetState.init,
      setEntry, List.filter]
  · have hdu : (WatchChangeAggregator.CreateRemoteEvent p
        (WatchChangeAggregator.HandleDocumentChange p st
          (DocumentWatchChange.mk [1, 2] [] D (MaybeDocument.found D ver))) sv).1.document_updates
        = (WatchChangeAggregator.HandleDocumentChange p st
            (DocumentWatchChange.mk [1, 2] [] D
              (MaybeDocument.found D ver))).pending_document_updates := rfl
    rw [hdu, hHD, hB_updates]
    exact count_keys_setEntry D _ _

/-- Witness for C5 from the empty aggregator with document 9. -/
theorem c5_multi_target_fanout_witness :
    (lookupKey 1 WatchChangeAggregator.initAgg.target_states = none ∧
      lookupKey 2 WatchChangeAggregator.initAgg.target_states = none ∧
      (pAllActive.remoteKeysForTarget 1).contains 9 = false ∧
      (pAllActive.remoteKeysForTarget 2).contains 9 = false ∧
      (pAllActive.queryDataForTarget 1).isSome = true ∧
      (pAllActive.queryDataForTarget 2).isSome = true) ∧
    ((∃ tc1, lookupKey 1 (WatchChangeAggregator.CreateRemoteEvent pAllActive
        (WatchChangeAggregator.HandleDocumentChange pAllActive WatchChangeAggregator.initAgg
          (DocumentWatchChange.mk [1, 2] [] 9 (MaybeDocument.found 9 1))) 3).1.target_changes
        = some tc1 ∧ 9 ∈ tc1.added_documents) ∧
     (∃ tc2, lookupKey 2 (WatchChangeAggregator.CreateRemoteEvent pAllActive
        (WatchChangeAggregator.HandleDocumentChange pAllActive WatchChangeAggregator.initAgg
          (DocumentWatchChange.mk [1, 2] [] 9 (MaybeDocument.found 9 1))) 3).1.target_changes
        = some tc2 ∧ 9 ∈ tc2.added_documents) ∧
     (((WatchChangeAggregator.CreateRemoteEvent pAllActive
        (WatchChangeAggregator.HandleDocumentChange pAllActive WatchChangeAggregator.initAgg
          (DocumentWatchChange.mk [1, 2] [] 9 (MaybeDocument.found 9 1))) 3).1.document_updates.map
        Prod.fst).count 9 = 1)) :=
  ⟨⟨by decide, by decide, by decide, by decide, by decide, by decide⟩,
   c5_multi_target_fanout pAllActive WatchChangeAggregator.initAgg 9 1 3
     (by decide) (by decide) (by decide) (by decide) (by decide) (by decide)⟩

@[simp] theorem markCurrent_hasPending (s : TargetState) :
    s.MarkCurrent.has_pending_changes = true := rfl

@[simp] theorem markCurrent_token (s : TargetState) :
    s.MarkCurrent.resume_token = s.resume_token := rfl

@[simp] theorem recordPendingTargetRequest_changes (s : TargetState) :
    s.RecordPendingTargetRequest.document_changes = s.document_changes := rfl

@[simp] theorem recordPendingTargetRequest_current (s : TargetState) :
    s.RecordPendingTargetRequest.current = s.current := rfl

@[simp] theorem recordPendingTargetRequest_token (s : TargetState) :
    s.RecordPendingTargetRequest.resume_token = s.resume_token := rfl

@[simp] theorem recordPendingTargetRequest_hasPending (s : TargetState) :
    s.RecordPendingTargetRequest.has_pending_changes = s.has_pending_changes := rfl

@[simp] theorem recordTargetResponse_changes (s : TargetState) :
    s.RecordTargetResponse.document_changes = s.document_changes := rfl

@[simp] theorem recordTargetResponse_current (s : TargetState) :
    s.RecordTargetResponse.current = s.current := rfl

@[simp] theorem recordTargetResponse_token (s : TargetState) :
    s.RecordTargetResponse.resume_token = s.resume_token := rfl

@[simp] theorem recordTargetResponse_hasPending (s : TargetState) :
    s.RecordTargetResponse.has_pending_changes = s.has_pending_changes := rfl

theorem updateTargetState_states (st : WatchChangeAggregator) (tid : Nat)
    (f : TargetState → TargetState) :
    (st.UpdateTargetState tid f).target_states =
      setEntry tid (f (st.EnsureTargetState tid)) st.target_states := rfl

theorem handleTargetChangeFor_added (p : FSTTargetMetadataProvider)
    (ids tok : List Nat) (cause : Bool) (st : WatchChangeAggregator) (tid : Nat) :
    WatchChangeAggregator.HandleTargetChangeFor p
      (WatchTargetChange.mk WatchTargetChangeState.added ids tok cause) st tid
      = st.UpdateTargetState tid TargetState.RecordPendingTargetRequest := rfl

theorem handleTargetChangeFor_current (p : FSTTargetMetadataProvider)
    (ids tok : List Nat) (cause : Bool) (st : WatchChangeAggregator) (tid : Nat) :
    WatchChangeAggregator.HandleTargetChangeFor p
      (WatchTargetChange.mk WatchTargetChangeState.current ids tok cause) st tid
      = st.UpdateTargetState tid (fun ts => (ts.MarkCurrent).UpdateResumeToken tok) := rfl

theorem handleTargetChangeFor_removed_none (p : FSTTargetMetadataProvider)
    (ids tok : List Nat) (cause : Bool) (st : WatchChangeAggregator) (tid : Nat)
    (h : lookupKey tid st.target_states = none) :
    WatchChangeAggregator.HandleTargetChangeFor p
      (WatchTargetChange.mk WatchTargetChangeState.removed ids tok cause) st tid = st := by
  unfold WatchChangeAggregator.HandleTargetChangeFor
  rw [h]

theorem handleTargetChangeFor_removed_some (p : FSTTargetMetadataProvider)
    (ids tok : List Nat) (st : WatchChangeAggregator) (tid : Nat) (ts : TargetState)
    (h : lookupKey tid st.target_states = some ts) :
    WatchChangeAggregator.HandleTargetChangeFor p
      (WatchTargetChange.mk WatchTargetChangeState.removed ids tok false) st tid
      = { st with target_states := setEntry tid ts.RecordTargetResponse st.target_states } := by
  unfold WatchChangeAggregator.HandleTargetChangeFor
  rw [h]
  rfl

theorem handleTargetChangeFor_removed_some_states (p : FSTTargetMetadataProvider)
    (ids tok : List Nat) (cause : Bool) (st : WatchChangeAggregator) (tid : Nat)
    (ts : TargetState) (h : lookupKey tid st.target_states = some ts) :
    (WatchChangeAggregator.HandleTargetChangeFor p
      (WatchTargetChange.mk WatchTargetChangeState.removed ids tok cause) st tid).target_states
      = setEntry tid ts.RecordTargetResponse st.target_states := by
  unfold WatchChangeAggregator.HandleTargetChangeFor
  rw [h]
  cases cause <;> rfl

theorem handleTargetChange_singleton (p : FSTTargetMetadataProvider)
    (st : WatchChangeAggregator) (tc : WatchTargetChange) (tid : Nat)
    (h : WatchChangeAggregator.GetTargetIds p st tc = [tid]) :
    WatchChangeAggregator.HandleTargetChange p st tc
      = WatchChangeAggregator.HandleTargetChangeFor p tc st tid := by
  unfold WatchChangeAggregator.HandleTargetChange
  rw [h]
  rfl

/-- Counterexample to C6: a target registered via RecordPendingTargetRequest
and then acknowledged only by a *current* WatchTargetChange still has an
outstanding response, so it is not active and the next CreateRemoteEvent
emits no TargetChange for it. -/
theorem c6_fresh_target_counterexample :
    lookupKey 7 ((WatchChangeAggregator.CreateRemoteEvent pAllActive
      (applyOps pAllActive
        [AggOp.recordPendingTargetRequest 7,
         AggOp.targetChange
           (WatchTargetChange.mk WatchTargetChangeState.current [7] [1, 2] false)]
        WatchChangeAggregator.initAgg) 0).1).target_changes = none := by decide

/-- C6 (amended): a target registered via RecordPendingTargetRequest whose
pending request has been acknowledged by a *removed* WatchTargetChange
(bringing the outstanding count back to zero) and then marked current by a
*current* WatchTargetChange, with zero document events, appears in the next
CreateRemoteEvent output with current true and empty
added/modified/removed sets. -/
theorem c6_fresh_target_amended (p : FSTTargetMetadataProvider)
    (st : WatchChangeAggregator) (tid : Nat) (tok : List Nat) (sv : Nat)
    (h0 : lookupKey tid st.target_states = none)
    (hq : (p.queryDataForTarget tid).isSome = true) :
    ∃ tc, lookupKey tid ((WatchChangeAggregator.CreateRemoteEvent p
        (WatchChangeAggregator.HandleTargetChange p
          (WatchChangeAggregator.HandleTargetChange p
            (WatchChangeAggregator.RecordPendingTargetRequest st tid)
            (WatchTargetChange.mk WatchTargetChangeState.removed [tid] [] false))
          (WatchTargetChange.mk WatchTargetChangeState.current [tid] tok false))
        sv).1).target_changes = some tc ∧
      tc.current = true ∧ tc.added_documents = [] ∧ tc.modified_documents = [] ∧
      tc.removed_documents = [] := by
  have hEns0 : st.EnsureTargetState tid = TargetState.init := by
    unfold WatchChangeAggregator.EnsureTargetState
    rw [h0]
    rfl
  have hA_states : (WatchChangeAggregator.RecordPendingTargetRequest st tid).target_states
      = setEntry tid TargetState.init.RecordPendingTargetRequest st.target_states := by
    show setEntry tid (TargetState.RecordPendingTargetRequest (st.EnsureTargetState tid))
      st.target_states = _
    rw [hEns0]
  have hA_lookup : lookupKey tid
      (WatchChangeAggregator.RecordPendingTargetRequest st tid).target_states
      = some TargetState.init.RecordPendingTargetRequest := by
    rw [hA_states]
    exact lookupKey_setEntry_self tid _ st.target_states
  have hB : WatchChangeAggregator.HandleTargetChange p
      (WatchChangeAggregator.RecordPendingTargetRequest st tid)
      (WatchTargetChange.mk WatchTargetChangeState.removed [tid] [] false)
      = { WatchChangeAggregator.RecordPendingTargetRequest st tid with
          target_states :=
            setEntry tid TargetState.init.RecordPendingTargetRequest.RecordTargetResponse
              (WatchChangeAggregator.RecordPendingTargetRequest st tid).target_states } := by
    rw [handleTargetChange_singleton p
      (WatchChangeAggregator.RecordPendingTargetRequest st tid)
      (WatchTargetChange.mk WatchTargetChangeState.removed [tid] [] false) tid rfl]
    exact handleTargetChangeFor_removed_some p [tid] []
      (WatchChangeAggregator.RecordPendingTargetRequest st tid) tid _ hA_lookup
  have hB_lookup : lookupKey tid (WatchChangeAggregator.HandleTargetChange p
      (WatchChangeAggregator.RecordPendingTargetRequest st tid)
      (WatchTargetChange.mk WatchTargetChangeState.removed [tid] [] false)).target_states
      = some TargetState.init.RecordPendingTargetRequest.RecordTargetResponse := by
    rw [hB]
    exact lookupKey_setEntry_self tid _ _
  have hEnsB : (WatchChangeAggregator.HandleTargetChange p
      (WatchChangeAggregator.RecordPendingTargetRequest st tid)
      (WatchTargetChange.mk WatchTargetChangeState.removed [tid] [] false)).EnsureTargetState tid
      = TargetState.init.RecordPendingTargetRequest.RecordTargetResponse := by
    unfold WatchChangeAggregator.EnsureTargetState
    rw [hB_lookup]
    rfl
  have hC_states : (WatchChangeAggregator.HandleTargetChange p
      (WatchChangeAggregator.HandleTargetChange p
        (WatchChangeAggregator.RecordPendingTargetRequest st tid)
        (WatchTargetChange.mk WatchTargetChangeState.removed [tid] [] false))
      (WatchTargetChange.mk WatchTargetChangeState.current [tid] tok false)).target_states
      = setEntry tid
          ((TargetState.init.RecordPendingTargetRequest.RecordTargetResponse.MarkCurrent).UpdateResumeToken tok)
          (WatchChangeAggregator.HandleTargetChange p
            (WatchChangeAggregator.RecordPendingTargetRequest st tid)
            (WatchTargetChange.mk WatchTargetChangeState.removed [tid] [] false)).target_states := by
    rw [handleTargetChange_singleton p
      (WatchChangeAggregator.HandleTargetChange p
        (WatchChangeAggregator.RecordPendingTargetRequest st tid)
        (WatchTargetChange.mk WatchTargetChangeState.removed [tid] [] false))
      (WatchTargetChange.mk WatchTargetChangeState.current [tid] tok false) tid rfl]
    rw [handleTargetChangeFor_current, updateTargetState_states, hEnsB]
  have hfeC : findEntry tid (WatchChangeAggregator.HandleTargetChange p
      (WatchChangeAggregator.HandleTargetChange p
        (WatchChangeAggregator.RecordPendingTargetRequest st tid)
        (WatchTargetChange.mk WatchTargetChangeState.removed [tid] [] false))
      (WatchTargetChange.mk WatchTargetChangeState.current [tid] tok false)).target_states
      = some (tid,
          (TargetState.init.RecordPendingTargetRequest.RecordTargetResponse.MarkCurrent).UpdateResumeToken tok) := by
    rw [hC_states]
    exact findEntry_setEntry_self tid _ _
  have hlC := lookupKey_eq_some_iff.mpr hfeC
  have hout3 : ((TargetState.init.RecordPendingTargetRequest.RecordTargetResponse.MarkCurrent).UpdateResumeToken
      tok).outstanding_responses = 0 := by
    simp [TargetState.init]
  have hinc : WatchChangeAggregator.IncludeTarget p
      (WatchChangeAggregator.HandleTargetChange p
        (WatchChangeAggregator.HandleTargetChange p
          (WatchChangeAggregator.RecordPendingTargetRequest st tid)
          (WatchTargetChange.mk WatchTargetChangeState.removed [tid] [] false))
        (WatchTargetChange.mk WatchTargetChangeState.current [tid] tok false))
      (tid, (TargetState.init.RecordPendingTargetRequest.RecordTargetResponse.MarkCurrent).UpdateResumeToken tok)
      = true := by
    unfold WatchChangeAggregator.IncludeTarget WatchChangeAggregator.IsActiveTarget
    rw [hlC]
    simp [TargetState.IsPending, TargetState.init, hq]
  have hm : lookupKey tid ((WatchChangeAggregator.CreateRemoteEvent p
      (WatchChangeAggregator.HandleTargetChange p
        (WatchChangeAggregator.HandleTargetChange p
          (WatchChangeAggregator.RecordPendingTargetRequest st tid)
          (WatchTargetChange.mk WatchTargetChangeState.removed [tid] [] false))
        (WatchTargetChange.mk WatchTargetChangeState.current [tid] tok false))
      sv).1).target_changes
      = (findEntry tid ((WatchChangeAggregator.HandleTargetChange p
          (WatchChangeAggregator.HandleTargetChange p
            (WatchChangeAggregator.RecordPendingTargetRequest st tid)
            (WatchTargetChange.mk WatchTargetChangeState.removed [tid] [] false))
          (WatchTargetChange.mk WatchTargetChangeState.current [tid] tok false)).target_states.filter
          (WatchChangeAggregator.IncludeTarget p
            (WatchChangeAggregator.HandleTargetChange p
              (WatchChangeAggregator.HandleTargetChange p
                (WatchChangeAggregator.RecordPendingTargetRequest st tid)
                (WatchTargetChange.mk WatchTargetChangeState.removed [tid] [] false))
              (WatchTargetChange.mk WatchTargetChangeState.current [tid] tok false))))).map
          (fun e => e.2.ToTargetChange) :=
    lookupKey_mapSnd tid (fun (e : Nat × TargetState) => e.2.ToTargetChange) _
  refine ⟨((TargetState.init.RecordPendingTargetRequest.RecordTargetResponse.MarkCurrent).UpdateResumeToken
    tok).ToTargetChange, ?_, ?_, ?_, ?_, ?_⟩
  · rw [hm, findEntry_filter_of_mem _ hfeC hinc]
    rfl
  · simp [TargetState.ToTargetChange]
  · simp [TargetState.ToTargetChange, TargetState.init]
  · simp [TargetState.ToTargetChange, TargetState.init]
  · simp [TargetState.ToTargetChange, TargetState.init]

/-- Witness for the amended C6 from the empty aggregator. -/
theorem c6_fresh_target_amended_witness :
    (lookupKey 7 WatchChangeAggregator.initAgg.target_states = none ∧
      (pAllActive.queryDataForTarget 7).isSome = true) ∧
    (∃ tc, lookupKey 7 ((WatchChangeAggregator.CreateRemoteEvent pAllActive
        (WatchChangeAggregator.HandleTargetChange pAllActive
          (WatchChangeAggregator.HandleTargetChange pAllActive
            (WatchChangeAggregator.RecordPendingTargetRequest
              WatchChangeAggregator.initAgg 7)
            (WatchTargetChange.mk WatchTargetChangeState.removed [7] [] false))
          (WatchTargetChange.mk WatchTargetChangeState.current [7] [1, 2] false))
        0).1).target_changes = some tc ∧
      tc.current = true ∧ tc.added_documents = [] ∧ tc.modified_documents = [] ∧
      tc.removed_documents = []) :=
  ⟨⟨by decide, by decide⟩,
   c6_fresh_target_amended pAllActive WatchChangeAggregator.initAgg 7 [1, 2] 0
     (by decide) (by decide)⟩

/-- The per-target outstanding-response counters are all non-negative. -/
def AllNonneg (st : WatchChangeAggregator) : Prop :=
  ∀ e ∈ st.target_states, 0 ≤ e.2.outstanding_responses

theorem mem_setEntry {α : Type} {e : Nat × α} {k : Nat} {v : α}
    {l : List (Nat × α)} (h : e ∈ setEntry k v l) : e = (k, v) ∨ e ∈ l := by
  rcases List.mem_cons.mp h with h | h
  · exact Or.inl h
  · exact Or.inr (List.mem_filter.mp h).1

theorem mem_setEntry_strong {α : Type} {e : Nat × α} {k : Nat} {v : α}
    {l : List (Nat × α)} (h : e ∈ setEntry k v l) :
    e = (k, v) ∨ (e ∈ l ∧ e.1 ≠ k) := by
  rcases List.mem_cons.mp h with h | h
  · exact Or.inl h
  · rcases List.mem_filter.mp h with ⟨h1, h2⟩
    exact Or.inr ⟨h1, by simpa [bne_iff_ne] using h2⟩

theorem ensureTargetState_nonneg (st : WatchChangeAggregator) (tid : Nat)
    (h : AllNonneg st) : 0 ≤ (st.EnsureTargetState tid).outstanding_responses := by
  unfold WatchChangeAggregator.EnsureTargetState
  cases hl : lookupKey tid st.target_states with
  | none => simp [TargetState.init]
  | some ts => simpa using h (tid, ts) (lookupKey_mem hl)

theorem allNonneg_updateTargetState (st : WatchChangeAggregator) (tid : Nat)
    (f : TargetState → TargetState) (h : AllNonneg st)
    (hf : 0 ≤ (f (st.EnsureTargetState tid)).outstanding_responses) :
    AllNonneg (st.UpdateTargetState tid f) := by
  intro e he
  rw [updateTargetState_states] at he
  rcases mem_setEntry he with rfl | he2
  · exact hf
  · exact h e he2

theorem allNonneg_addDocumentToTarget (p : FSTTargetMetadataProvider)
    (st : WatchChangeAggregator) (tid : Nat) (doc : MaybeDocument)
    (h : AllNonneg st) :
    AllNonneg (WatchChangeAggregator.AddDocumentToTarget p st tid doc) := by
  intro e he
  rw [addDocumentToTarget_target_states] at he
  rcases mem_setEntry he with rfl | he2
  · simpa using ensureTargetState_nonneg st tid h
  · exact h e he2

theorem allNonneg_removeDocumentFromTarget (st : WatchChangeAggregator)
    (tid key : Nat) (upd : Option MaybeDocument) (h : AllNonneg st) :
    AllNonneg (WatchChangeAggregator.RemoveDocumentFromTarget st tid key upd) := by
  cases hl : lookupKey tid st.target_states with
  | none =>
    unfold WatchChangeAggregator.RemoveDocumentFromTarget
    rw [hl]
    exact h
  | some ts =>
    unfold WatchChangeAggregator.RemoveDocumentFromTarget
    rw [hl]
    intro e he
    have he2 : e ∈ setEntry tid (if st.pending_target_resets.contains tid then ts
        else ts.AddDocumentChange key DocumentViewChangeType.removed) st.target_states := he
    rcases mem_setEntry he2 with rfl | he3
    · have h0 := h (tid, ts) (lookupKey_mem hl)
      by_cases hc : tid ∈ st.pending_target_resets
      · simpa [hc] using h0
      · simpa [hc] using h0
    · exact h e he3

theorem foldl_allNonneg {β : Type} (f : WatchChangeAggregator → β → WatchChangeAggregator)
    (hf : ∀ s b, AllNonneg s → AllNonneg (f s b)) :
    ∀ (l : List β) (s : WatchChangeAggregator), AllNonneg s → AllNonneg (l.foldl f s) := by
  intro l
  induction l with
  | nil => intro s h; simpa using h
  | cons a rest ih =>
    intro s h
    simp only [List.foldl_cons]
    exact ih _ (hf s a h)

theorem allNonneg_handleDocumentChange (p : FSTTargetMetadataProvider)
    (st : WatchChangeAggregator) (c : DocumentWatchChange) (h : AllNonneg st) :
    AllNonneg (WatchChangeAggregator.HandleDocumentChange p st c) := by
  unfold WatchChangeAggregator.HandleDocumentChange
  apply foldl_allNonneg _
    (fun s b hs => allNonneg_removeDocumentFromTarget s b c.document_key none hs)
  apply foldl_allNonneg _
    (fun s b hs => allNonneg_addDocumentToTarget p s b c.document hs)
  exact h

theorem allNonneg_resetTarget (st : WatchChangeAggregator) (tid : Nat)
    (h : AllNonneg st) : AllNonneg (WatchChangeAggregator.ResetTarget st tid) := by
  intro e he
  have he2 : e ∈ setEntry tid
      { TargetState.init with
          outstanding_responses := (st.EnsureTargetState tid).outstanding_responses }
      st.target_states := he
  rcases mem_setEntry he2 with rfl | he3
  · simpa using ensureTargetState_nonneg st tid h
  · exact h e he3

theorem handleTargetChangeFor_noChange (p : FSTTargetMetadataProvider)
    (ids tok : List Nat) (cause : Bool) (st : WatchChangeAggregator) (tid : Nat) :
    WatchChangeAggregator.HandleTargetChangeFor p
      (WatchTargetChange.mk WatchTargetChangeState.noChange ids tok cause) st tid
      = if WatchChangeAggregator.IsActiveTarget p st tid
        then st.UpdateTargetState tid (fun ts => ts.UpdateResumeToken tok)
        else st := rfl

theorem allNonneg_handleTargetChangeFor_nonRemoved (p : FSTTargetMetadataProvider)
    (tc : WatchTargetChange) (hs : tc.state ≠ WatchTargetChangeState.removed)
    (st : WatchChangeAggregator) (tid : Nat) (h : AllNonneg st) :
    AllNonneg (WatchChangeAggregator.HandleTargetChangeFor p tc st tid) := by
  cases tc with
  | mk s ids tok cause =>
    cases s with
    | noChange =>
      rw [handleTargetChangeFor_noChange]
      split
      · apply allNonneg_updateTargetState _ _ _ h
        simpa using ensureTargetState_nonneg st tid h
      · exact h
    | added =>
      rw [handleTargetChangeFor_added]
      apply allNonneg_updateTargetState _ _ _ h
      have h1 := ensureTargetState_nonneg st tid h
      simp only [recordPendingTargetRequest_outstanding]
      omega
    | removed => exact absurd rfl hs
    | current =>
      rw [handleTargetChangeFor_current]
      apply allNonneg_updateTargetState _ _ _ h
      simpa using ensureTargetState_nonneg st tid h
    | reset =>
      show AllNonneg ((st.ResetTarget tid).UpdateTargetState tid
        TargetState.RecordPendingTargetRequest)
      apply allNonneg_updateTargetState _ _ _ (allNonneg_resetTarget st tid h)
      have h1 := ensureTargetState_nonneg (st.ResetTarget tid) tid
        (allNonneg_resetTarget st tid h)
      simp only [recordPendingTargetRequest_outstanding]
      omega

theorem count_cons_le (x a : Nat) (l : List Nat) : l.count x ≤ (a :: l).count x := by
  rw [List.count_cons]
  split <;> omega

theorem count_cons_self_eq (a : Nat) (l : List Nat) : (a :: l).count a = l.count a + 1 := by
  simp [List.count_cons]

theorem count_cons_ne {x a : Nat} (h : x ≠ a) (l : List Nat) :
    (a :: l).count x = l.count x := by
  simp [List.count_cons, h]

theorem removedFold_nonneg (p : FSTTargetMetadataProvider) (ids tok : List Nat)
    (cause : Bool) :
    ∀ (l : List Nat) (st : WatchChangeAggregator),
      (∀ e ∈ st.target_states, ((l.count e.1 : Int)) ≤ e.2.outstanding_responses) →
      AllNonneg (l.foldl (WatchChangeAggregator.HandleTargetChangeFor p
        (WatchTargetChange.mk WatchTargetChangeState.removed ids tok cause)) st) := by
  intro l
  induction l with
  | nil =>
    intro st h e he
    have h0 := h e he
    simpa using h0
  | cons a rest ih =>
    intro st h
    simp only [List.foldl_cons]
    apply ih
    intro e he
    cases hl : lookupKey a st.target_states with
    | none =>
      rw [handleTargetChangeFor_removed_none p ids tok cause st a hl] at he
      have h0 := h e he
      have hc : rest.count e.1 ≤ (a :: rest).count e.1 := count_cons_le e.1 a rest
      have hc2 : ((rest.count e.1 : Int)) ≤ (((a :: rest).count e.1 : Int)) := by
        exact_mod_cast hc
      exact le_trans hc2 h0
    | some ts =>
      have hstates := handleTargetChangeFor_removed_some_states p ids tok cause st a ts hl
      rw [hstates] at he
      rcases mem_setEntry_strong he with rfl | ⟨hmem, hne⟩
      · have h0 := h (a, ts) (lookupKey_mem hl)
        have hcc : (a :: rest).count a = rest.count a + 1 := count_cons_self_eq a rest
        rw [hcc] at h0
        simp only [recordTargetResponse_outstanding]
        push_cast at h0
        omega
      · have h0 := h e hmem
        rw [count_cons_ne hne rest] at h0
        exact h0

theorem allNonneg_handleTargetChange_removed (p : FSTTargetMetadataProvider)
    (ids tok : List Nat) (cause : Bool) (st : WatchChangeAggregator)
    (hg : ∀ e ∈ st.target_states,
      (((WatchChangeAggregator.GetTargetIds p st
        (WatchTargetChange.mk WatchTargetChangeState.removed ids tok cause)).count e.1 : Int))
        ≤ e.2.outstanding_responses) :
    AllNonneg (WatchChangeAggregator.HandleTargetChange p st
      (WatchTargetChange.mk WatchTargetChangeState.removed ids tok cause)) := by
  unfold WatchChangeAggregator.HandleTargetChange
  exact removedFold_nonneg p ids tok cause _ st hg

theorem allNonneg_createRemoteEvent (p : FSTTargetMetadataProvider)
    (st : WatchChangeAggregator) (v : Nat) (h : AllNonneg st) :
    AllNonneg ((WatchChangeAggregator.CreateRemoteEvent p st v).2) := by
  intro e he
  have he2 : e ∈ st.target_states.map
      (fun e => (e.1, if WatchChangeAggregator.IncludeTarget p st e
                      then e.2.ClearPendingChanges else e.2)) := he
  rcases List.mem_map.mp he2 with ⟨e0, he0, rfl⟩
  have h0 := h e0 he0
  by_cases hc : WatchChangeAggregator.IncludeTarget p st e0 = true
  · simpa [hc] using h0
  · simp only [Bool.not_eq_true] at hc
    simpa [hc] using h0

theorem allNonneg_handleExistenceFilter (p : FSTTargetMetadataProvider)
    (st : WatchChangeAggregator) (f : ExistenceFilterWatchChange)
    (h : AllNonneg st) :
    AllNonneg (WatchChangeAggregator.HandleExistenceFilter p st f) := by
  unfold WatchChangeAggregator.HandleExistenceFilter
  split
  · exact h
  · intro e he
    have he2 : e ∈ (WatchChangeAggregator.ResetTarget st f.target_id).target_states := he
    exact allNonneg_resetTarget st f.target_id h e he2

theorem allNonneg_removeTarget (st : WatchChangeAggregator) (tid : Nat)
    (h : AllNonneg st) : AllNonneg (WatchChangeAggregator.RemoveTarget st tid) := by
  intro e he
  have he2 : e ∈ st.target_states.filter (fun e => e.1 != tid) := he
  exact h e (List.mem_filter.mp he2).1

/-- The protocol-conformance guard the amended C8 assumes: a *removed*
watch-target-change only acknowledges targets that have at least as many
outstanding responses as the number of times the change's resolved id list
names them; every other operation is unguarded. -/
def removedGuard (p : FSTTargetMetadataProvider) (op : AggOp)
    (st : WatchChangeAggregator) : Bool :=
  match op with
  | AggOp.targetChange tc =>
    if tc.state = WatchTargetChangeState.removed then
      st.target_states.all (fun e =>
        decide ((((WatchChangeAggregator.GetTargetIds p st tc).count e.1 : Int))
          ≤ e.2.outstanding_responses))
    else true
  | _ => true

/-- States reachable from the fresh aggregator by public operations whose
*removed* acknowledgments satisfy the protocol guard. -/
inductive GuardedReachable (p : FSTTargetMetadataProvider) :
    WatchChangeAggregator → Prop where
  | init : GuardedReachable p WatchChangeAggregator.initAgg
  | step {st : WatchChangeAggregator} (op : AggOp) (h : GuardedReachable p st)
      (hg : removedGuard p op st = true) : GuardedReachable p (applyOp p st op)

/-- Counterexample to C8: an *added* acknowledgment followed by two *removed*
acknowledgments for the same target drives its outstanding-response counter
to -1 in a state reachable by public operations, outside any reset
transition. -/
theorem c8_counterexample :
    (lookupKey 1 (applyOps pAllActive
      [AggOp.targetChange
         (WatchTargetChange.mk WatchTargetChangeState.added [1] [] false),
       AggOp.targetChange
         (WatchTargetChange.mk WatchTargetChangeState.removed [1] [] false),
       AggOp.targetChange
         (WatchTargetChange.mk WatchTargetChangeState.removed [1] [] false)]
      WatchChangeAggregator.initAgg).target_states).map
      (fun ts => ts.outstanding_responses) = some (-1) := by decide

/-- C8 (amended): in every state reachable by public aggregator operations in
which each *removed* watch-target-change only acknowledges targets with
enough outstanding responses (the server acknowledging only requested
changes), every Target State's outstanding-response counter is
non-negative; an unmatched removed acknowledgment violates this
(see the counterexample). -/
theorem c8_outstanding_nonneg (p : FSTTargetMetadataProvider)
    (st : WatchChangeAggregator) (h : GuardedReachable p st) : AllNonneg st := by
  induction h with
  | init =>
    intro e he
    simp [WatchChangeAggregator.initAgg] at he
  | step op h hg ih =>
    cases op with
    | docChange c => exact allNonneg_handleDocumentChange p _ c ih
    | targetChange tc =>
      cases tc with
      | mk s ids tok cause =>
        cases s with
        | removed =>
          apply allNonneg_handleTargetChange_removed p ids tok cause _
          intro e he
          simp only [removedGuard, if_pos] at hg
          rw [List.all_eq_true] at hg
          exact of_decide_eq_true (hg e he)
        | noChange =>
          show AllNonneg (WatchChangeAggregator.HandleTargetChange p _ _)
          unfold WatchChangeAggregator.HandleTargetChange
          exact foldl_allNonneg _
            (fun st2 tid hst => allNonneg_handleTargetChangeFor_nonRemoved p _
              (by simp) st2 tid hst) _ _ ih
        | added =>
          show AllNonneg (WatchChangeAggregator.HandleTargetChange p _ _)
          unfold WatchChangeAggregator.HandleTargetChange
          exact foldl_allNonneg _
            (fun st2 tid hst => allNonneg_handleTargetChangeFor_nonRemoved p _
              (by simp) st2 tid hst) _ _ ih
        | current =>
          show AllNonneg (WatchChangeAggregator.HandleTargetChange p _ _)
          unfold WatchChangeAggregator.HandleTargetChange
          exact foldl_allNonneg _
            (fun st2 tid hst => allNonneg_handleTargetChangeFor_nonRemoved p _
              (by simp) st2 tid hst) _ _ ih
        | reset =>
          show AllNonneg (WatchChangeAggregator.HandleTargetChange p _ _)
          unfold WatchChangeAggregator.HandleTargetChange
          exact foldl_allNonneg _
            (fun st2 tid hst => allNonneg_handleTargetChangeFor_nonRemoved p _
              (by simp) st2 tid hst) _ _ ih
    | existenceFilter f => exact allNonneg_handleExistenceFilter p _ f ih
    | createRemoteEvent v => exact allNonneg_createRemoteEvent p _ v ih
    | removeTarget tid => exact allNonneg_removeTarget _ tid ih
    | recordPendingTargetRequest tid =>
      apply allNonneg_updateTargetState _ _ _ ih
      have h1 := ensureTargetState_nonneg _ tid ih
      simp only [recordPendingTargetRequest_outstanding]
      omega

/-- Witness for the amended C8: a request followed by its matching removed
acknowledgment stays within the guard and keeps all counters non-negative. -/
theorem c8_outstanding_nonneg_witness :
    AllNonneg (applyOp pAllActive
      (applyOp pAllActive WatchChangeAggregator.initAgg
        (AggOp.targetChange
          (WatchTargetChange.mk WatchTargetChangeState.added [1] [] false)))
      (AggOp.targetChange
        (WatchTargetChange.mk WatchTargetChangeState.removed [1] [] false))) :=
  c8_outstanding_nonneg pAllActive _
    (GuardedReachable.step _
      (GuardedReachable.step _ GuardedReachable.init (by decide)) (by decide))
